import Mathlib

/-!
Verification development for the rabbit-prison simulation.

The Python source (game_world.py, block.py, rabbit.py, character.py,
game_view.py, bullet.py, item.py) is shallow-embedded below.  Conventions:

* Coordinates and timers are rationals.  Python floats are idealised as exact
  rational arithmetic; every numeric literal is carried over verbatim.
* `QRectF.intersects` is strict overlap (touching edges do not intersect),
  matching Qt semantics for non-empty rectangles.
* Every comparison of a Euclidean distance (`sqrt(dx*dx+dy*dy) < m` in the
  source) is embedded as the equivalent comparison of squares
  (`dx*dx+dy*dy < m*m` together with `0 < m` where the bound is a variable),
  which is exact for the real square root.  Square roots and trigonometric
  functions whose *values* flow into the state (movement deltas, wander
  targets, bullet motion) are supplied by an explicit `Prim` parameter, so
  all definitions stay executable and theorems quantify over `Prim`.
* Python object identity (for characters, blocks and items) is modelled by a
  numeric id field; the world's `next_id` counter plays the role of the
  allocator.  Presentation-only fields (aim angle, animation frames, sprite
  state) are not modelled.
* `random.random()` draws are supplied by an oracle stream `Rng`;
  `random.uniform(a,b)` is `a + (b-a)*random()` exactly as in CPython.
-/

namespace RabbitPrison

/-- Axis-aligned rectangle, mirroring QRectF (x, y, width, height). -/
structure Rect where
  rx : ℚ
  ry : ℚ
  rw : ℚ
  rh : ℚ
deriving DecidableEq

/-- QRectF.intersects for non-empty rectangles: strict overlap on both axes. -/
def Rect.intersects (a b : Rect) : Bool :=
  decide (a.rx < b.rx + b.rw) && decide (b.rx < a.rx + a.rw) &&
  decide (a.ry < b.ry + b.rh) && decide (b.ry < a.ry + a.rh)

/-- block.py BlockType. -/
inductive BlockType where
  | wall
  | door
  | food
  | water
  | farm
  | fence
deriving DecidableEq

/-- block.py Block.  The growth fields exist only for farms in the source;
here they are carried (inertly) by every block, initialised as for a farm. -/
structure Block where
  bid : ℕ
  x : ℚ
  y : ℚ
  block_type : BlockType
  size : ℚ := 50
  is_open : Bool := false
  growth_stage : ℕ := 0
  growth_timer : ℚ := 0
  growth_time : ℚ := 10
deriving DecidableEq

def Block.get_rect (b : Block) : Rect := ⟨b.x, b.y, b.size, b.size⟩

/-- Block.get_interaction_point: the block center (size // 2 = size / 2 here,
the size is the even constant 50). -/
def Block.interactionX (b : Block) : ℚ := b.x + b.size / 2

def Block.interactionY (b : Block) : ℚ := b.y + b.size / 2

/-- block.py Block.update_growth. -/
def Block.update_growth (b : Block) (delta_time : ℚ) : Block :=
  if b.block_type = BlockType.farm then
    if b.growth_stage = 0 then
      let t := b.growth_timer + delta_time
      if 1 ≤ t then { b with growth_stage := 1, growth_timer := 0 }
      else { b with growth_timer := t }
    else if b.growth_stage < 3 then
      let t := b.growth_timer + delta_time
      let growth_progress := t / b.growth_time
      if growth_progress < 0.33 then { b with growth_timer := t, growth_stage := 1 }
      else if growth_progress < 0.66 then { b with growth_timer := t, growth_stage := 2 }
      else { b with growth_timer := t, growth_stage := 3 }
    else b
  else b

/-- block.py Block.harvest: returns the success flag and the updated block. -/
def Block.harvest (b : Block) : Bool × Block :=
  if b.block_type = BlockType.farm ∧ b.growth_stage = 3 then
    (true, { b with growth_stage := 0, growth_timer := 0 })
  else (false, b)

/-- block.py Block.is_harvestable. -/
def Block.is_harvestable (b : Block) : Bool :=
  decide (b.block_type = BlockType.farm) && decide (b.growth_stage = 3)

/-- character.py CharacterType. -/
inductive CharType where
  | warden
  | rabbit
deriving DecidableEq

/-- Snapshot of the identity, type and cell position of a block held in a
rabbit's `target_facility` reference (these Python attributes are immutable
after block creation, so a snapshot models the live reference faithfully). -/
structure TargetRef where
  tid : ℕ
  tbt : BlockType
  tx : ℚ
  ty : ℚ
deriving DecidableEq

/-- character.py Character / rabbit.py Rabbit merged (Rabbit extends
Character in the source; warden rows keep the rabbit fields at their inert
defaults).  Presentation fields (aim_angle, animation_frame, last_dx/dy,
frame_count) are not modelled. -/
structure Character where
  cid : ℕ
  character_type : CharType
  x : ℚ
  y : ℚ
  size : ℚ
  speed : ℚ
  held_item : Option ℕ := none
  carrots : ℤ := 0
  money : ℤ := 0
  rabbit_meat : ℤ := 0
  rabbit_poop : ℤ := 0
  health : ℚ := 100
  food_level : ℚ := 100
  water_level : ℚ := 100
  sleep_level : ℚ := 100
  is_eating : Bool := false
  is_drinking : Bool := false
  is_sleeping : Bool := false
  action_timer : ℚ := 0
  target_facility : Option TargetRef := none
  random_target_x : Option ℚ := none
  random_target_y : Option ℚ := none
  wait_timer : ℚ := 0
  is_waiting : Bool := false
  is_breeding : Bool := false
  breeding_timer : ℚ := 0
  breeding_cooldown : ℚ := 0
  breeding_partner : Option ℕ := none
deriving DecidableEq

/-- Character.__init__ with CharacterType.WARDEN (size 20, speed 3,
10 carrots, 100 money). -/
def mkWarden (idn : ℕ) (x y : ℚ) : Character :=
  { cid := idn, character_type := CharType.warden, x := x, y := y, size := 20, speed := 3,
    carrots := 10, money := 100 }

/-- Rabbit.__init__ (size 50, speed 1, health and needs 100, all flags off). -/
def mkRabbit (idn : ℕ) (x y : ℚ) : Character :=
  { cid := idn, character_type := CharType.rabbit, x := x, y := y, size := 50, speed := 1 }

/-- Character.get_rect (size // 2 = size / 2: both character sizes, 20 and
50, are even). -/
def Character.get_rect (c : Character) : Rect :=
  ⟨c.x - c.size / 2, c.y - c.size / 2, c.size, c.size⟩

/-- Character.move, without the presentation-only animation bookkeeping. -/
def Character.move (c : Character) (dx dy : ℚ) : Character :=
  { c with x := c.x + dx, y := c.y + dy }

/-- item.py Item (position and holder; the visual subclasses carry no extra
core state). -/
structure Item where
  iid : ℕ
  x : ℚ
  y : ℚ
  held_by : Option ℕ := none
deriving DecidableEq

/-- bullet.py Bullet. -/
structure Bullet where
  x : ℚ
  y : ℚ
  angle : ℚ
  speed : ℚ := 15
  active : Bool := true
deriving DecidableEq

/-- Bullet.get_rect: size 3, size // 2 = 1 in Python integer division. -/
def Bullet.get_rect (b : Bullet) : Rect := ⟨b.x - 1, b.y - 1, 3, 3⟩

/-- game_world.py GameWorld state (walls list is created empty by
_create_walls). -/
structure World where
  width : ℚ := 2000
  height : ℚ := 2000
  walls : List Rect := []
  placed_blocks : List Block := []
  characters : List Character := []
  items : List Item := []
  bullets : List Bullet := []
  next_id : ℕ := 0
deriving DecidableEq

/-- GameWorld.get_warden: first character of warden type. -/
def World.get_warden (w : World) : Option Character :=
  w.characters.find? (fun c => decide (c.character_type = CharType.warden))

/-- GameWorld.check_collision: the moved bounding box against walls,
blocking placed blocks (everything except open doors, food, water, farm),
and the world bounds. -/
def World.check_collision (w : World) (c : Character) (dx dy : ℚ) : Bool :=
  let new_x := c.x + dx
  let new_y := c.y + dy
  let test_rect : Rect := ⟨new_x - c.size / 2, new_y - c.size / 2, c.size, c.size⟩
  (w.walls.any fun wall => test_rect.intersects wall) ||
  (w.placed_blocks.any fun b =>
    if b.block_type = BlockType.door ∧ b.is_open then false
    else if b.block_type = BlockType.food ∨ b.block_type = BlockType.water ∨
            b.block_type = BlockType.farm then false
    else test_rect.intersects b.get_rect) ||
  decide (new_x - c.size / 2 < 0) || decide (w.width < new_x + c.size / 2) ||
  decide (new_y - c.size / 2 < 0) || decide (w.height < new_y + c.size / 2)

/-- Python float floor-division snap `(x // 50) * 50`. -/
def gridSnap (v : ℚ) : ℚ := (((v / 50).floor * 50 : ℤ) : ℚ)

/-- Python `int(...)` truncation toward zero. -/
def pyInt (q : ℚ) : ℤ := if 0 ≤ q then q.floor else q.ceil

/-- Python integer floor-division snap `(n // 50) * 50` for an int n. -/
def intSnap (n : ℤ) : ℚ := ((Int.fdiv n 50 * 50 : ℤ) : ℚ)

/-- Update the (unique) character with the given id in place. -/
def World.updateCharById (w : World) (idn : ℕ) (f : Character → Character) : World :=
  { w with characters := w.characters.map (fun c => if c.cid = idn then f c else c) }

/-- GameWorld.place_block.  Faithful to the source's order of effects: for a
farm the carrot check-and-deduction happens before the occupancy tests, so a
farm placement that fails on occupancy has already consumed a carrot. -/
def World.place_block (w : World) (x y : ℚ) (block_type : BlockType) : Bool × World :=
  let snapped_x := gridSnap x
  let snapped_y := gridSnap y
  let farmCheck : Option World :=
    if block_type = BlockType.farm then
      match w.get_warden with
      | none => none
      | some wd =>
          if wd.carrots < 1 then none
          else some (w.updateCharById wd.cid (fun c => { c with carrots := c.carrots - 1 }))
    else some w
  match farmCheck with
  | none => (false, w)
  | some w1 =>
    let new_block_rect : Rect := ⟨snapped_x, snapped_y, 50, 50⟩
    if w1.placed_blocks.any (fun b => new_block_rect.intersects b.get_rect) then (false, w1)
    else if w1.characters.any (fun c => new_block_rect.intersects c.get_rect) then (false, w1)
    else
      let b : Block := { bid := w1.next_id, x := snapped_x, y := snapped_y,
                         block_type := block_type }
      (true, { w1 with placed_blocks := w1.placed_blocks ++ [b], next_id := w1.next_id + 1 })

/-- Remove the first list element satisfying the predicate (list.remove). -/
def removeFirst (p : Block → Bool) : List Block → List Block
  | [] => []
  | b :: rest => if p b then rest else b :: removeFirst p rest

/-- GameWorld.remove_block: remove the first block at the snapped cell. -/
def World.remove_block (w : World) (x y : ℚ) : Bool × World :=
  let sx := gridSnap x
  let sy := gridSnap y
  if w.placed_blocks.any (fun b => decide (b.x = sx) && decide (b.y = sy)) then
    (true, { w with placed_blocks :=
              removeFirst (fun b => decide (b.x = sx) && decide (b.y = sy)) w.placed_blocks })
  else (false, w)

/-- Primitive real functions (square root, cosine, sine) whose values feed
back into the state.  Theorems are stated for every choice of `Prim`. -/
structure Prim where
  sqrt : ℚ → ℚ
  cos : ℚ → ℚ
  sin : ℚ → ℚ

/-- A concrete inert instantiation of `Prim`, used only to form closed
statements; no theorem depends on its values. -/
def dummyPrim : Prim := ⟨fun _ => 0, fun _ => 0, fun _ => 0⟩

/-- Values of math.cos at the degree angles 0,45,...,315 used by the door
push-out ring search.  The 45-degree multiples carry the IEEE double value
of cos (error under 1e-15); every downstream `int()` argument in this
development is at distance at least 0.05 from an integer, so the snapped
cells agree with the source. -/
def cosDeg : ℕ → ℚ
  | 45 => 0.7071067811865476
  | 90 => 0
  | 135 => -0.7071067811865476
  | 180 => -1
  | 225 => -0.7071067811865476
  | 270 => 0
  | 315 => 0.7071067811865476
  | _ => 1

/-- Values of math.sin at the same angles. -/
def sinDeg : ℕ → ℚ
  | 45 => 0.7071067811865476
  | 90 => 1
  | 135 => 0.7071067811865476
  | 180 => 0
  | 225 => -0.7071067811865476
  | 270 => -1
  | 315 => -0.7071067811865476
  | _ => 0

def searchRadii : List ℕ := [50, 100, 150]

def searchAngles : List ℕ := [0, 45, 90, 135, 180, 225, 270, 315]

/-- The collision test used inside _find_closest_free_space: walls and
blocking placed blocks, with the closing door itself excluded (identity
comparison `placed_block == door_block`). -/
def World.freeSpaceBlocked (w : World) (door_block : Block) (r : Rect) : Bool :=
  (w.walls.any fun wall => r.intersects wall) ||
  (w.placed_blocks.any fun pb =>
    if pb.bid = door_block.bid then false
    else if pb.block_type = BlockType.door ∧ pb.is_open then false
    else if pb.block_type = BlockType.food ∨ pb.block_type = BlockType.water ∨
            pb.block_type = BlockType.farm then false
    else r.intersects pb.get_rect)

/-- GameWorld._find_closest_free_space: expanding ring search (radii 50,
100, 150; eight compass angles), falling back to a direct shove away from
the door center.  Note that neither path tests the world bounds. -/
def World.find_closest_free_space (w : World) (prim : Prim) (door_block : Block)
    (start_x start_y : ℚ) : ℚ × ℚ :=
  let door_center_x := door_block.x + door_block.size / 2
  let door_center_y := door_block.y + door_block.size / 2
  let found : Option (ℚ × ℚ) :=
    searchRadii.findSome? fun radius =>
      searchAngles.findSome? fun angle =>
        let check_x := door_center_x + cosDeg angle * (radius : ℚ)
        let check_y := door_center_y + sinDeg angle * (radius : ℚ)
        let snapped_x := intSnap (pyInt check_x)
        let snapped_y := intSnap (pyInt check_y)
        let test_rect : Rect := ⟨snapped_x, snapped_y, 50, 50⟩
        if w.freeSpaceBlocked door_block test_rect then none
        else some (snapped_x + 25, snapped_y + 25)
  match found with
  | some p => p
  | none =>
    let dx := start_x - door_center_x
    let dy := start_y - door_center_y
    if dx = 0 ∧ dy = 0 then (door_center_x, door_center_y - 50)
    else
      let distance := prim.sqrt (dx * dx + dy * dy)
      if 0 < distance then
        (door_center_x + dx / distance * 100, door_center_y + dy / distance * 100)
      else (door_center_x, door_center_y - 50)

/-- GameWorld._push_objects_from_door: relocate intersecting characters and
unheld items, destroy intersecting active bullets.  The relocation target
depends only on walls and blocks, so the per-entity searches are
independent, as in the source. -/
def World.push_objects_from_door (w : World) (prim : Prim) (door_block : Block) : World :=
  let door_rect := door_block.get_rect
  let chars := w.characters.map fun c =>
    if c.get_rect.intersects door_rect then
      let p := w.find_closest_free_space prim door_block c.x c.y
      { c with x := p.1, y := p.2 }
    else c
  let items := w.items.map fun it =>
    if it.held_by = none then
      let item_rect : Rect := ⟨it.x - 5, it.y - 5, 10, 10⟩
      if item_rect.intersects door_rect then
        let p := w.find_closest_free_space prim door_block it.x it.y
        { it with x := p.1, y := p.2 }
      else it
    else it
  let bullets := w.bullets.filter fun bl => !(bl.active && bl.get_rect.intersects door_rect)
  { w with characters := chars, items := items, bullets := bullets }

/-- Replace the block with the given id (object mutation in the source). -/
def World.setBlock (w : World) (b : Block) : World :=
  { w with placed_blocks := w.placed_blocks.map (fun q => if q.bid = b.bid then b else q) }

/-- GameWorld.toggle_door: flip the first door at the snapped cell; on an
open-to-closed transition run the push-out resolver. -/
def World.toggle_door (w : World) (prim : Prim) (x y : ℚ) : Bool × World :=
  let sx := gridSnap x
  let sy := gridSnap y
  match w.placed_blocks.find? (fun b =>
      decide (b.block_type = BlockType.door) && decide (b.x = sx) && decide (b.y = sy)) with
  | none => (false, w)
  | some blk =>
    let was_open := blk.is_open
    let blk2 := { blk with is_open := !blk.is_open }
    let w1 := w.setBlock blk2
    if was_open && !blk2.is_open then (true, w1.push_objects_from_door prim blk2)
    else (true, w1)

/-- Squared Euclidean distance between two points. -/
def distSq (ax ay bx byy : ℚ) : ℚ := (bx - ax) * (bx - ax) + (byy - ay) * (byy - ay)

/-- The update test of the nearest-block fold: the source compares real
distances (`sqrt d < m`); against an already-stored block this is the
squared comparison, and against the initial bound `maxd` it is
`0 < maxd ∧ d < maxd^2`, both exact for the real square root. -/
def nearBeats (x y maxd : ℚ) (b : Block) : Option Block → Bool
  | some c =>
      decide (distSq x y b.interactionX b.interactionY < distSq x y c.interactionX c.interactionY)
  | none =>
      decide (0 < maxd) && decide (distSq x y b.interactionX b.interactionY < maxd * maxd)

/-- The linear scan shared by the three nearest-block queries: strict
improvement only, so the earliest block among equal minima is kept. -/
def nearestAux (p : Block → Bool) (x y maxd : ℚ) : List Block → Option Block → Option Block
  | [], best => best
  | b :: rest, best =>
      if p b && nearBeats x y maxd b best then nearestAux p x y maxd rest (some b)
      else nearestAux p x y maxd rest best

/-- GameWorld.find_nearest_food_block. -/
def World.find_nearest_food_block (w : World) (x y : ℚ) (maxd : ℚ := 500) : Option Block :=
  nearestAux (fun b => decide (b.block_type = BlockType.food)) x y maxd w.placed_blocks none

/-- GameWorld.find_nearest_water_block. -/
def World.find_nearest_water_block (w : World) (x y : ℚ) (maxd : ℚ := 500) : Option Block :=
  nearestAux (fun b => decide (b.block_type = BlockType.water)) x y maxd w.placed_blocks none

/-- GameWorld.find_nearest_harvestable_farm. -/
def World.find_nearest_harvestable_farm (w : World) (x y : ℚ) (maxd : ℚ := 500) : Option Block :=
  nearestAux (fun b => decide (b.block_type = BlockType.farm) && b.is_harvestable)
    x y maxd w.placed_blocks none

/-- GameWorld.is_at_facility: distance from the character to the block's
interaction point below 30 (squared form). -/
def is_at_facility (c : Character) (b : Block) : Bool :=
  decide (distSq c.x c.y b.interactionX b.interactionY < 900)

/-- The decay/restore section of Rabbit.update_needs: idle needs decay
(floored at 0) and active needs restore (capped at 100). -/
def needsDecayRestore (c : Character) (delta_time : ℚ) : Character :=
  { c with
    food_level :=
      if c.is_eating then
        min 100 ((if !c.is_eating then max 0 (c.food_level - 0.5 * delta_time)
                  else c.food_level) + 25 * delta_time)
      else if !c.is_eating then max 0 (c.food_level - 0.5 * delta_time) else c.food_level
    water_level :=
      if c.is_drinking then
        min 100 ((if !c.is_drinking then max 0 (c.water_level - 0.8 * delta_time)
                  else c.water_level) + 50 * delta_time)
      else if !c.is_drinking then max 0 (c.water_level - 0.8 * delta_time) else c.water_level
    sleep_level :=
      if c.is_sleeping then
        min 100 ((if !c.is_sleeping then max 0 (c.sleep_level - 0.3 * delta_time)
                  else c.sleep_level) + 20 * delta_time)
      else if !c.is_sleeping then max 0 (c.sleep_level - 0.3 * delta_time)
           else c.sleep_level }

/-- The breeding-cooldown section of Rabbit.update_needs. -/
def cooldownTick (c : Character) (delta_time : ℚ) : Character :=
  { c with breeding_cooldown :=
      if 0 < c.breeding_cooldown then c.breeding_cooldown - delta_time
      else c.breeding_cooldown }

/-- The action-timer section of Rabbit.update_needs: decrement an active
timer; on expiry finish the current action (eating or drinking ends;
sleeping ends only at full sleep, otherwise the timer is extended to
(100 - sleep_level) / 20), and clear the facility target unless still
sleeping. -/
def actionTimerTick (c : Character) (delta_time : ℚ) : Character :=
  if 0 < c.action_timer then
    let t := c.action_timer - delta_time
    let c3 : Character := { c with action_timer := t }
    if t ≤ 0 then
      let c4 : Character :=
        if c3.is_eating then { c3 with is_eating := false }
        else if c3.is_drinking then { c3 with is_drinking := false }
        else if c3.is_sleeping then
          if 100 ≤ c3.sleep_level then { c3 with is_sleeping := false }
          else { c3 with action_timer := (100 - c3.sleep_level) / 20 }
        else c3
      if !c4.is_sleeping then { c4 with target_facility := none } else c4
    else c3
  else c

/-- The speed section of Rabbit.update_needs, computed from the post-update
needs. -/
def speedUpdate (c : Character) : Character :=
  { c with speed :=
      if c.food_level < 10 ∨ c.water_level < 10 then 0.5
      else if c.food_level < 30 ∨ c.water_level < 30 then 0.75
      else 1 }

/-- rabbit.py Rabbit.update_needs: the four sections in source order. -/
def Character.update_needs (c : Character) (delta_time : ℚ) : Character :=
  speedUpdate (actionTimerTick (cooldownTick (needsDecayRestore c delta_time) delta_time)
    delta_time)

/-- Rabbit.start_eating. -/
def Character.start_eating (c : Character) (duration : ℚ) : Character :=
  { c with is_eating := true, is_drinking := false, is_sleeping := false,
           action_timer := duration }

/-- Rabbit.start_drinking. -/
def Character.start_drinking (c : Character) (duration : ℚ) : Character :=
  { c with is_eating := false, is_drinking := true, is_sleeping := false,
           action_timer := duration }

/-- Rabbit.start_sleeping: the timer is at least long enough to restore
sleep to 100 at 20 per second. -/
def Character.start_sleeping (c : Character) (duration : ℚ) : Character :=
  { c with is_eating := false, is_drinking := false, is_sleeping := true, is_breeding := false,
           action_timer := max duration ((100 - c.sleep_level) / 20) }

/-- Rabbit.start_breeding. -/
def Character.start_breeding (c : Character) : Character :=
  { c with is_eating := false, is_drinking := false, is_sleeping := false, is_breeding := true,
           breeding_partner := none }

/-- Rabbit.move_towards: no movement while sleeping, eating or drinking;
otherwise one speed-scaled step toward the target, falling back to X-only
then Y-only displacement when the diagonal is blocked.  The distance guard
and the normalisation use the square root primitive. -/
def Character.move_towards (c : Character) (prim : Prim) (w : World)
    (target_x target_y : ℚ) : Character :=
  if c.is_sleeping then c
  else if c.is_eating ∨ c.is_drinking then c
  else
    let dx := target_x - c.x
    let dy := target_y - c.y
    let distance := prim.sqrt (dx * dx + dy * dy)
    if distance < 1 then c
    else if 0 < distance then
      let move_dx := dx / distance * c.speed
      let move_dy := dy / distance * c.speed
      if !w.check_collision c move_dx move_dy then c.move move_dx move_dy
      else if decide (0.1 < |move_dx|) && !w.check_collision c move_dx 0 then c.move move_dx 0
      else if decide (0.1 < |move_dy|) && !w.check_collision c 0 move_dy then c.move 0 move_dy
      else c
    else c

/-- Oracle stream for random.random() draws. -/
structure Rng where
  stream : ℕ → ℚ
  idx : ℕ := 0

/-- random.random(): take the next oracle value. -/
def Rng.next (g : Rng) : ℚ × Rng := (g.stream g.idx, { g with idx := g.idx + 1 })

/-- random.uniform(a, b) = a + (b - a) * random(), as in CPython. -/
def Rng.uniform (g : Rng) (a b : ℚ) : ℚ × Rng :=
  let (u, g1) := g.next
  (a + (b - a) * u, g1)

/-- The oracle delivers values in [0, 1), the range of random.random(). -/
def ValidRng (g : Rng) : Prop := ∀ n, 0 ≤ g.stream n ∧ g.stream n < 1

/-- A new rabbit as spawned by breeding completion: uniform(50,100) needs in
source order (food, water, sleep) and full health. -/
def spawnRabbit (idn : ℕ) (x y : ℚ) (g : Rng) : Character × Rng :=
  let (f, g1) := g.uniform 50 100
  let (wat, g2) := g1.uniform 50 100
  let (s, g3) := g2.uniform 50 100
  ({ mkRabbit idn x y with food_level := f, water_level := wat, sleep_level := s,
                           health := 100 }, g3)

/-- The breeding-partner search: nearest other breeding rabbit that is free
or already paired with this one; strict improvement, so the earliest of
equally distant candidates wins (closest_distance starts at infinity). -/
def findPartner (chars : List Character) (c : Character) : Option Character :=
  chars.foldl (fun best other =>
    if other.cid ≠ c.cid ∧ other.character_type = CharType.rabbit ∧ other.is_breeding ∧
       (other.breeding_partner = none ∨ other.breeding_partner = some c.cid) then
      match best with
      | none => some other
      | some p =>
          if distSq c.x c.y other.x other.y < distSq c.x c.y p.x p.y then some other else best
    else best) none

/-- Write the character at list position k (in-place object update). -/
def World.writeChar (w : World) (k : ℕ) (c : Character) : World :=
  { w with characters := w.characters.set k c }

/-- The farm-eating branch at the top of the per-rabbit tick: update needs,
and on the frame the timer crosses zero destroy the farm block (identity
removal followed by the positional remove_block, as in the source), grant
+30 food capped at 100, and clear the eating state. -/
def farmEatStep (w : World) (g : Rng) (k : ℕ) (c : Character) (t : TargetRef) : World × Rng :=
  let timer_before := c.action_timer
  let c1 := c.update_needs 0.016
  if 0 < timer_before ∧ c1.action_timer ≤ 0 then
    let w1 := { w with placed_blocks := removeFirst (fun b => decide (b.bid = t.tid))
                          w.placed_blocks }
    let w2 := (w1.remove_block t.tx t.ty).2
    let c2 := { c1 with food_level := min 100 (c1.food_level + 30), is_eating := false,
                        target_facility := none }
    (w2.writeChar k c2, g)
  else (w.writeChar k c1, g)

/-- The pairing section of the breeding-continuation branch: find and
bidirectionally pair with a partner if unpaired. -/
def breedPair (w : World) (k : ℕ) (c1 : Character) : Character × World :=
  let w1 := w.writeChar k c1
  if c1.breeding_partner = none then
    match findPartner w1.characters c1 with
    | some p =>
      let c2 := { c1 with breeding_partner := some p.cid }
      let w2 := w1.writeChar k c2
      let w3 :=
        if p.breeding_partner ≠ some c1.cid then
          w2.updateCharById p.cid (fun q => { q with breeding_partner := some c1.cid })
        else w2
      (c2, w3)
    | none => (c1, w1)
  else (c1, w1)

/-- The resolution section of the breeding-continuation branch: validate the
partner; on distance below 30 complete (both leave breeding with cooldown
30, one new rabbit spawns at the midpoint), otherwise move toward the
partner. -/
def breedResolve (prim : Prim) (g : Rng) (k : ℕ) (pw : Character × World) : World × Rng :=
  let c2 := pw.1
  let w2 := pw.2
  match c2.breeding_partner with
  | none => (w2, g)
  | some pid =>
    match w2.characters.find? (fun q => decide (q.cid = pid)) with
    | none => (w2.writeChar k { c2 with breeding_partner := none }, g)
    | some p =>
      if !p.is_breeding then (w2.writeChar k { c2 with breeding_partner := none }, g)
      else
        let partner_x := p.x
        let partner_y := p.y
        if distSq c2.x c2.y partner_x partner_y < 900 then
          let c3 := { c2 with is_breeding := false, breeding_cooldown := 30,
                              breeding_partner := none,
                              random_target_x := none, random_target_y := none,
                              is_waiting := false }
          let w3 := w2.writeChar k c3
          let w4 := w3.updateCharById pid (fun q =>
            { q with is_breeding := false, breeding_cooldown := 30, breeding_partner := none })
          let born := spawnRabbit w4.next_id ((c2.x + partner_x) / 2) ((c2.y + partner_y) / 2) g
          ({ w4 with characters := w4.characters ++ [born.1], next_id := w4.next_id + 1 },
           born.2)
        else
          (w2.writeChar k (c2.move_towards prim w2 partner_x partner_y), g)

/-- The breeding-continuation branch: the pairing section followed by the
resolution section. -/
def breedingStep (prim : Prim) (w : World) (g : Rng) (k : ℕ) (c1 : Character) : World × Rng :=
  breedResolve prim g k (breedPair w k c1)

/-- The wander target draw: angle = uniform(0, 2*pi) with the double value
of 2*pi, distance = uniform(50, 150), then the trigonometric primitives and
the clamp to the world bounds minus a 50-unit margin. -/
def wanderTarget (prim : Prim) (w : World) (cx cy : ℚ) (g : Rng) : (ℚ × ℚ) × Rng :=
  let (u1, g1) := g.uniform 0 6.283185307179586
  let (dist, g2) := g1.uniform 50 150
  let rx0 := cx + prim.cos u1 * dist
  let ry0 := cy + prim.sin u1 * dist
  ((max 50 (min rx0 (w.width - 50)), max 50 (min ry0 (w.height - 50))), g2)

/-- The harvestable-farm attraction, with the generic food-seek in its elif
branch (so a found farm preempts the food logic entirely): within 30 units
of a stage-3 farm start farm-eating (3 s) targeting it, else target the
farm center; only with no farm found and food below 30, start eating at a
Food block in interaction range or target its interaction point.  The
result carries (rabbit, movement target, should_seek_facility). -/
def farmFoodStage (w : World) (c1 : Character) : Character × Option (ℚ × ℚ) × Bool :=
  match w.find_nearest_harvestable_farm c1.x c1.y 500 with
  | some farm =>
    let farm_center_x := farm.x + farm.size / 2
    let farm_center_y := farm.y + farm.size / 2
    if distSq c1.x c1.y farm_center_x farm_center_y < 900 then
      ({ c1.start_eating 3 with
           target_facility := some ⟨farm.bid, farm.block_type, farm.x, farm.y⟩,
           random_target_x := none, random_target_y := none, is_waiting := false },
       none, false)
    else
      ({ c1 with random_target_x := none, random_target_y := none, is_waiting := false },
       some (farm_center_x, farm_center_y), true)
  | none =>
    if c1.food_level < 30 then
      match w.find_nearest_food_block c1.x c1.y 500 with
      | some food_block =>
        if is_at_facility c1 food_block then
          ({ c1.start_eating 2 with
               target_facility := some ⟨food_block.bid, food_block.block_type,
                                        food_block.x, food_block.y⟩,
               random_target_x := none, random_target_y := none, is_waiting := false },
           none, false)
        else
          ({ c1 with random_target_x := none, random_target_y := none, is_waiting := false },
           some (food_block.interactionX, food_block.interactionY), true)
      | none => (c1, none, false)
    else (c1, none, false)

/-- The independent water check (runs after the farm/food section and can
override its action and target): below 30 water, start drinking at a Water
block in range or target its interaction point. -/
def waterStage (w : World) (st : Character × Option (ℚ × ℚ) × Bool) :
    Character × Option (ℚ × ℚ) × Bool :=
  let cA := st.1
  if cA.water_level < 30 then
    match w.find_nearest_water_block cA.x cA.y 500 with
    | some water_block =>
      if is_at_facility cA water_block then
        ({ cA.start_drinking 1 with
             target_facility := some ⟨water_block.bid, water_block.block_type,
                                      water_block.x, water_block.y⟩,
             random_target_x := none, random_target_y := none, is_waiting := false },
         st.2.1, st.2.2)
      else
        ({ cA with random_target_x := none, random_target_y := none, is_waiting := false },
         some (water_block.interactionX, water_block.interactionY), true)
    | none => st
  else st

/-- The sleep check (only when no facility seek was flagged): the sleep
spot is displaced away from the warden, clamped to the bounds minus a
50-unit margin; within 20 units start sleeping, else target the spot
(without setting should_seek_facility). -/
def sleepStage (w : World) (warden_x warden_y : ℚ) (st : Character × Option (ℚ × ℚ) × Bool) :
    Character × Option (ℚ × ℚ) × Bool :=
  let cW := st.1
  if cW.sleep_level < 20 ∧ st.2.2 = false then
    let sleep_x0 := cW.x + (cW.x - warden_x) * 0.3
    let sleep_y0 := cW.y + (cW.y - warden_y) * 0.3
    let sleep_x := max 50 (min sleep_x0 (w.width - 50))
    let sleep_y := max 50 (min sleep_y0 (w.height - 50))
    if distSq cW.x cW.y sleep_x sleep_y < 400 then
      ({ cW.start_sleeping 5 with
           random_target_x := none, random_target_y := none, is_waiting := false },
       st.2.1, st.2.2)
    else
      ({ cW with random_target_x := none, random_target_y := none, is_waiting := false },
       some (sleep_x, sleep_y), st.2.2)
  else st

/-- The final movement section: wander (waiting countdown, random target
draw, arrival handling) when no facility seek happened and sleep is not
low, otherwise move toward the accumulated target if any. -/
def wanderOrMoveStage (prim : Prim) (w : World) (g : Rng) (k : ℕ)
    (st : Character × Option (ℚ × ℚ) × Bool) : World × Rng :=
  let cS := st.1
  if st.2.2 = false ∧ 20 ≤ cS.sleep_level then
    if cS.is_waiting then
      let c2 := { cS with wait_timer := cS.wait_timer - 0.016 }
      if c2.wait_timer ≤ 0 then
        let drawn := wanderTarget prim w c2.x c2.y g
        (w.writeChar k { c2 with is_waiting := false,
                                 random_target_x := some drawn.1.1,
                                 random_target_y := some drawn.1.2 }, drawn.2)
      else (w.writeChar k c2, g)
    else
      let ensured : Character × Rng :=
        match cS.random_target_x, cS.random_target_y with
        | some _, some _ => (cS, g)
        | _, _ =>
          let drawn := wanderTarget prim w cS.x cS.y g
          ({ cS with random_target_x := some drawn.1.1, random_target_y := some drawn.1.2 },
           drawn.2)
      let c3 := ensured.1
      let g1 := ensured.2
      match c3.random_target_x, c3.random_target_y with
      | some rx, some ry =>
        if distSq c3.x c3.y rx ry < 225 then
          let wt := g1.uniform 1 3
          (w.writeChar k { c3 with is_waiting := true, wait_timer := wt.1,
                                   random_target_x := none, random_target_y := none }, wt.2)
        else (w.writeChar k (c3.move_towards prim w rx ry), g1)
      | _, _ => (w.writeChar k c3, g1)
  else
    match st.2.1 with
    | some tgt => (w.writeChar k (cS.move_towards prim w tgt.1 tgt.2), g)
    | none => (w.writeChar k cS, g)

/-- The facility-seeking phase of the per-rabbit tick (reached when the
rabbit is idle and the breeding gate did not fire): harvestable-farm
attraction with the food-seek elif, then the independent water check, the
sleep check, and finally wander or move-to-target. -/
def facilityPhase (prim : Prim) (warden_x warden_y : ℚ) (w : World) (g : Rng) (k : ℕ)
    (c1 : Character) : World × Rng :=
  wanderOrMoveStage prim w g k
    (sleepStage w warden_x warden_y (waterStage w (farmFoodStage w c1)))

/-- The breeding-eligibility gate (full health, food at least 75, cooldown
expired, sleep at least 20, then a 5 percent draw), followed by the
facility phase when it does not fire. -/
def gatePhase (prim : Prim) (warden_x warden_y : ℚ) (w : World) (g : Rng) (k : ℕ)
    (c1 : Character) : World × Rng :=
  if 100 ≤ c1.health ∧ 75 ≤ c1.food_level ∧ c1.breeding_cooldown ≤ 0 ∧ 20 ≤ c1.sleep_level then
    let (u, g1) := g.next
    if u < 0.05 then (w.writeChar k c1.start_breeding, g1)
    else facilityPhase prim warden_x warden_y w g1 k c1
  else facilityPhase prim warden_x warden_y w g k c1

/-- Whether a stored facility reference points at a farm block. -/
def targetIsFarm : Option TargetRef → Bool
  | some t => decide (t.tbt = BlockType.farm)
  | none => false

/-- The per-rabbit tick body after the farm-eating branch: update needs,
then the early continues for ongoing actions, then breeding continuation,
then the gate and the facility phase. -/
def generalStep (prim : Prim) (warden_x warden_y : ℚ) (w : World) (g : Rng) (k : ℕ)
    (c : Character) : World × Rng :=
  let c1 := c.update_needs 0.016
  if c1.is_eating && targetIsFarm c1.target_facility then
    (w.writeChar k c1, g)
  else if c1.is_eating ∨ c1.is_drinking then (w.writeChar k c1, g)
  else if c1.is_sleeping then (w.writeChar k c1, g)
  else if c1.is_breeding then breedingStep prim w g k c1
  else gatePhase prim warden_x warden_y w g k c1

/-- One iteration of the rabbit-AI loop for the character at position k. -/
def charStep (prim : Prim) (warden_x warden_y : ℚ) (st : World × Rng) (k : ℕ) : World × Rng :=
  match st.1.characters[k]? with
  | none => st
  | some c =>
    if c.character_type ≠ CharType.rabbit then st
    else
      match c.target_facility with
      | some t =>
        if c.is_eating ∧ t.tbt = BlockType.farm then farmEatStep st.1 st.2 k c t
        else generalStep prim warden_x warden_y st.1 st.2 k c
      | none => generalStep prim warden_x warden_y st.1 st.2 k c

/-- The rabbit-AI loop: Python's for-loop over world.characters observes
elements appended during iteration, so the loop runs an index over the
growing list.  Each step appends at most one character and appended
newborns never append, so twice the initial length (plus slack) of fuel is
enough for the loop to run to completion. -/
def aiLoop (prim : Prim) (warden_x warden_y : ℚ) : ℕ → ℕ → World × Rng → World × Rng
  | 0, _, st => st
  | fuel + 1, k, st =>
      if k < st.1.characters.length then
        aiLoop prim warden_x warden_y fuel (k + 1) (charStep prim warden_x warden_y st k)
      else st

/-- The warden movement keys pressed during a tick. -/
structure Keys where
  kw : Bool := false
  ks : Bool := false
  ka : Bool := false
  kd : Bool := false

/-- The warden movement section of update_game: S overrides W and D
overrides A; the X displacement is attempted first, then the Y
displacement, each collision-checked independently. -/
def wardenMove (w : World) (keys : Keys) : World :=
  match w.get_warden with
  | none => w
  | some wd =>
    let dy : ℚ := if keys.ks then wd.speed else if keys.kw then -wd.speed else 0
    let dx : ℚ := if keys.kd then wd.speed else if keys.ka then -wd.speed else 0
    let wd1 := if dx ≠ 0 ∧ !(w.check_collision wd dx 0) then wd.move dx 0 else wd
    let w1 := w.updateCharById wd.cid (fun _ => wd1)
    let wd2 := if dy ≠ 0 ∧ !(w1.check_collision wd1 0 dy) then wd1.move 0 dy else wd1
    w1.updateCharById wd.cid (fun _ => wd2)

/-- bullet.py Bullet.update. -/
def Bullet.update (prim : Prim) (b : Bullet) : Bullet :=
  if b.active then
    { b with x := b.x + prim.cos b.angle * b.speed, y := b.y + prim.sin b.angle * b.speed }
  else b

/-- GameWorld.update_bullets: move every bullet, then drop the ones out of
bounds or intersecting a wall. -/
def World.update_bullets (w : World) (prim : Prim) : World :=
  let moved := w.bullets.map (Bullet.update prim)
  { w with bullets := moved.filter (fun b =>
      !(decide (b.x < 0) || decide (w.width < b.x) || decide (b.y < 0) ||
        decide (w.height < b.y) || w.walls.any (fun wall => b.get_rect.intersects wall))) }

/-- GameWorld.update_farms. -/
def World.update_farms (w : World) (delta_time : ℚ) : World :=
  { w with placed_blocks := w.placed_blocks.map (fun b =>
      if b.block_type = BlockType.farm then b.update_growth delta_time else b) }

/-- The item-pickup section of update_game: the warden picks up the first
unheld item within 30 units, dropping any previously held world item at the
warden's position. -/
def itemPickup (w : World) : World :=
  match w.get_warden with
  | none => w
  | some wd =>
    match w.items.find? (fun it =>
        decide (it.held_by = none) && decide (distSq wd.x wd.y it.x it.y < 900)) with
    | none => w
    | some it =>
      let old := wd.held_item
      let items1 := w.items.map (fun j =>
        if j.iid = it.iid then { j with held_by := some wd.cid }
        else match old with
             | some oid =>
               if j.iid = oid then { j with held_by := none, x := wd.x, y := wd.y } else j
             | none => j)
      let w1 := { w with items := items1 }
      w1.updateCharById wd.cid (fun c => { c with held_item := some it.iid })

/-- One simulation tick (GameView.update_game without the presentation
parts): warden movement, bullet update, farm growth, the rabbit-AI loop,
item pickup. -/
def tick (prim : Prim) (keys : Keys) (w : World) (g : Rng) : World × Rng :=
  match w.get_warden with
  | none => (w, g)
  | some _ =>
    let w1 := wardenMove w keys
    let w2 := w1.update_bullets prim
    let w3 := w2.update_farms 0.016
    let wpos : ℚ × ℚ :=
      match w3.get_warden with
      | some wd => (wd.x, wd.y)
      | none => (0, 0)
    let st := aiLoop prim wpos.1 wpos.2 (2 * w3.characters.length + 2) 0 (w3, g)
    (itemPickup st.1, st.2)

def initialRabbitPositions : List (ℚ × ℚ) :=
  [(150, 150), (370, 150), (590, 150), (150, 370), (370, 370), (590, 370)]

def mkBlock (idn : ℕ) (x y : ℚ) (bt : BlockType) : Block :=
  { bid := idn, x := x, y := y, block_type := bt }

/-- One step of the initial rabbit construction fold: draw uniform(50,100)
food, water and sleep levels in source order and append the rabbit. -/
def buildRabbit (acc : List Character × Rng × ℕ) (p : ℚ × ℚ) : List Character × Rng × ℕ :=
  let g0 := acc.2.1
  let (f, g1) := g0.uniform 50 100
  let (wat, g2) := g1.uniform 50 100
  let (s, g3) := g2.uniform 50 100
  (acc.1 ++ [{ mkRabbit acc.2.2 p.1 p.2 with
                food_level := f, water_level := wat, sleep_level := s }], g3, acc.2.2 + 1)

/-- GameWorld.__init__: the warden at (1000, 500), six rabbits at the cell
positions with uniform(50,100) needs drawn in source order (food, water,
sleep per rabbit), three food and two water blocks, three keys, no walls,
no bullets. -/
def initialWorld (g : Rng) : World :=
  let rabbits := (initialRabbitPositions.foldl buildRabbit ([], g, 1)).1
  { characters := mkWarden 0 1000 500 :: rabbits,
    placed_blocks := [mkBlock 7 300 300 BlockType.food, mkBlock 8 700 300 BlockType.food,
                      mkBlock 9 1100 300 BlockType.food, mkBlock 10 500 500 BlockType.water,
                      mkBlock 11 900 500 BlockType.water],
    items := [⟨12, 500, 300, none⟩, ⟨13, 800, 400, none⟩, ⟨14, 1200, 600, none⟩],
    next_id := 15 }

/-- World states reachable from the initial world through ticks and the
player operations (warden movement is part of the tick). -/
inductive Reachable : World → Prop where
  | init (g : Rng) (hg : ValidRng g) : Reachable (initialWorld g)
  | step_tick (w : World) (prim : Prim) (keys : Keys) (g : Rng) (hg : ValidRng g) :
      Reachable w → Reachable (tick prim keys w g).1
  | step_place (w : World) (x y : ℚ) (bt : BlockType) :
      Reachable w → Reachable (w.place_block x y bt).2
  | step_remove (w : World) (x y : ℚ) :
      Reachable w → Reachable (w.remove_block x y).2
  | step_toggle (w : World) (prim : Prim) (x y : ℚ) :
      Reachable w → Reachable (w.toggle_door prim x y).2

/-- The needs-bounds invariant of a character: food, water and sleep levels
in [0, 100]. -/
def NeedsOK (c : Character) : Prop :=
  0 ≤ c.food_level ∧ c.food_level ≤ 100 ∧ 0 ≤ c.water_level ∧ c.water_level ≤ 100 ∧
  0 ≤ c.sleep_level ∧ c.sleep_level ≤ 100

/-- The action-flag invariant: eating, drinking and sleeping pairwise
exclusive, and breeding excludes all three. -/
def FlagsOK (c : Character) : Prop :=
  (c.is_eating = true → c.is_drinking = false ∧ c.is_sleeping = false) ∧
  (c.is_drinking = true → c.is_sleeping = false) ∧
  (c.is_breeding = true → c.is_eating = false ∧ c.is_drinking = false ∧ c.is_sleeping = false)

/-- The combined per-character invariant used for the reachability
theorems. -/
def RInv (c : Character) : Prop := NeedsOK c ∧ FlagsOK c

/-- A fresh farm block followed by a sequence of update_growth calls. -/
def growSeq (b : Block) (dts : List ℚ) : Block := dts.foldl Block.update_growth b

/-- The inductive invariant of a farm driven only by update_growth: farm
type and growth_time are fixed, the stage stays in 0..3, an empty plot has
timer below the 1-second planting delay, and stages 2 and 3 certify timers
past 0.33 and 0.66 of growth_time. -/
def FarmInv (b : Block) : Prop :=
  b.block_type = BlockType.farm ∧ b.growth_time = 10 ∧
  (b.growth_stage = 0 → b.growth_timer < 1) ∧
  b.growth_stage ≤ 3 ∧
  (b.growth_stage = 2 → 3.3 ≤ b.growth_timer) ∧
  (b.growth_stage = 3 → 6.6 ≤ b.growth_timer)

/-- The initial world at a concrete oracle (every draw is one half, so
every initial rabbit need is 75). -/
def W0 : World := initialWorld ⟨fun _ => 1/2, 0⟩

/-- What it means for a nearest-block query with filter p to return b: b
satisfies the filter, its center lies strictly within max_distance of the
query point (squared form with a positive bound), it minimises the distance
among all qualifying blocks, and every qualifying block strictly earlier in
the placed-block list is strictly farther, so among ties the earliest block
wins. -/
def NearestSpec (p : Block → Bool) (w : World) (x y maxd : ℚ) (b : Block) : Prop :=
  p b = true ∧ 0 < maxd ∧
  distSq x y b.interactionX b.interactionY < maxd * maxd ∧
  (∀ b2 ∈ w.placed_blocks, p b2 = true →
    distSq x y b.interactionX b.interactionY ≤ distSq x y b2.interactionX b2.interactionY) ∧
  ∃ l1 l2, w.placed_blocks = l1 ++ b :: l2 ∧
    ∀ b2 ∈ l1, p b2 = true →
      distSq x y b.interactionX b.interactionY < distSq x y b2.interactionX b2.interactionY

/-- The C2 failing scenario: starting from the initial world, the warden
places a door at cell (0, 100), toggles it open, walks onto it (open doors
are passable and the cell is in bounds), and places walls at cells
(50, 100), (50, 150) and (0, 150) — the three in-bounds ring-search
candidates that precede the first out-of-bounds candidate.  The rabbits
have wandered toward the south-east; the keys and facility blocks are
untouched.  This is the state just before the door is toggled shut. -/
def doorWorld : World :=
  { characters := [mkWarden 0 25 125,
                   mkRabbit 1 1500 1500, mkRabbit 2 1600 1500, mkRabbit 3 1700 1500,
                   mkRabbit 4 1500 1600, mkRabbit 5 1600 1600, mkRabbit 6 1700 1600],
    placed_blocks := [mkBlock 7 300 300 BlockType.food, mkBlock 8 700 300 BlockType.food,
                      mkBlock 9 1100 300 BlockType.food, mkBlock 10 500 500 BlockType.water,
                      mkBlock 11 900 500 BlockType.water,
                      { mkBlock 15 0 100 BlockType.door with is_open := true },
                      mkBlock 16 50 100 BlockType.wall,
                      mkBlock 17 50 150 BlockType.wall,
                      mkBlock 18 0 150 BlockType.wall],
    items := [⟨12, 500, 300, none⟩, ⟨13, 800, 400, none⟩, ⟨14, 1200, 600, none⟩],
    next_id := 19 }

/-- The facts about a rabbit carried through the facility-phase stages: the
identity, health, cooldown, partner and need levels are untouched, a
non-breeding rabbit stays non-breeding, and the flag invariant is
preserved. -/
def StageOK (c1 c2 : Character) : Prop :=
  c2.cid = c1.cid ∧ c2.character_type = c1.character_type ∧ c2.health = c1.health ∧
  c2.breeding_cooldown = c1.breeding_cooldown ∧ c2.breeding_partner = c1.breeding_partner ∧
  c2.food_level = c1.food_level ∧ c2.water_level = c1.water_level ∧
  c2.sleep_level = c1.sleep_level ∧
  (c1.is_breeding = false → c2.is_breeding = false) ∧
  (c1.is_breeding = false → FlagsOK c1 → FlagsOK c2)

/-- A hungry and thirsty rabbit used in the farm-attraction scenario. -/
def c7rabbit : Character :=
  { mkRabbit 1 520 520 with food_level := 20, water_level := 20, sleep_level := 50 }

/-- A harvestable (stage-3) farm. -/
def c7farm : Block := { mkBlock 7 600 500 BlockType.farm with growth_stage := 3 }

/-- Farm-attraction scenario world: the rabbit at (520,520) has a
harvestable farm at (600,500), a water block at (500,500) and a food block
at (460,560), all within 500 units; the warden is far away. -/
def c7world : World :=
  { characters := [mkWarden 0 1900 1900, c7rabbit],
    placed_blocks := [c7farm, mkBlock 8 500 500 BlockType.water,
                      mkBlock 9 460 560 BlockType.food],
    next_id := 10 }

/-- Whether a stored facility reference points at a food block. -/
def targetIsFood : Option TargetRef → Bool
  | some t => decide (t.tbt = BlockType.food)
  | none => false

/-- Breeding rabbit A of the completion scenario, already paired with B. -/
def c3A : Character :=
  { mkRabbit 1 600 600 with is_breeding := true, breeding_partner := some 2 }

/-- Breeding rabbit B of the completion scenario, 20 units from A. -/
def c3B : Character := { mkRabbit 2 620 600 with is_breeding := true }

/-- Breeding-completion scenario world: the warden plus the paired rabbits
A and B within 30 units of each other. -/
def c3world : World :=
  { characters := [mkWarden 0 1000 500, c3A, c3B], next_id := 3 }

/-! ## Theorems -/




theorem actionTimerTick_fixed_fields (c : Character) (dt : ℚ) :
    (actionTimerTick c dt).cid = c.cid ∧
    (actionTimerTick c dt).character_type = c.character_type ∧
    (actionTimerTick c dt).x = c.x ∧
    (actionTimerTick c dt).y = c.y ∧
    (actionTimerTick c dt).size = c.size ∧
    (actionTimerTick c dt).health = c.health ∧
    (actionTimerTick c dt).carrots = c.carrots ∧
    (actionTimerTick c dt).is_breeding = c.is_breeding ∧
    (actionTimerTick c dt).breeding_partner = c.breeding_partner ∧
    (actionTimerTick c dt).random_target_x = c.random_target_x ∧
    (actionTimerTick c dt).random_target_y = c.random_target_y ∧
    (actionTimerTick c dt).is_waiting = c.is_waiting ∧
    (actionTimerTick c dt).wait_timer = c.wait_timer ∧
    (actionTimerTick c dt).held_item = c.held_item ∧
    (actionTimerTick c dt).food_level = c.food_level ∧
    (actionTimerTick c dt).water_level = c.water_level ∧
    (actionTimerTick c dt).sleep_level = c.sleep_level ∧
    (actionTimerTick c dt).breeding_cooldown = c.breeding_cooldown := by
  simp only [actionTimerTick]
  split_ifs <;> and_intros <;> rfl

theorem actionTimerTick_flag_imp (c : Character) (dt : ℚ) :
    ((actionTimerTick c dt).is_eating = true → c.is_eating = true) ∧
    ((actionTimerTick c dt).is_drinking = true → c.is_drinking = true) ∧
    ((actionTimerTick c dt).is_sleeping = true → c.is_sleeping = true) := by
  simp only [actionTimerTick]
  split_ifs <;> refine ⟨fun h => ?_, fun h => ?_, fun h => ?_⟩ <;> simp_all

theorem update_needs_fixed_fields (c : Character) (dt : ℚ) :
    (c.update_needs dt).cid = c.cid ∧
    (c.update_needs dt).character_type = c.character_type ∧
    (c.update_needs dt).x = c.x ∧
    (c.update_needs dt).y = c.y ∧
    (c.update_needs dt).size = c.size ∧
    (c.update_needs dt).health = c.health ∧
    (c.update_needs dt).carrots = c.carrots ∧
    (c.update_needs dt).is_breeding = c.is_breeding ∧
    (c.update_needs dt).breeding_partner = c.breeding_partner ∧
    (c.update_needs dt).random_target_x = c.random_target_x ∧
    (c.update_needs dt).random_target_y = c.random_target_y ∧
    (c.update_needs dt).is_waiting = c.is_waiting ∧
    (c.update_needs dt).wait_timer = c.wait_timer ∧
    (c.update_needs dt).held_item = c.held_item := by
  obtain ⟨h1, h2, h3, h4, h5, h6, h7, h8, h9, h10, h11, h12, h13, h14, h15, h16, h17, h18⟩ :=
    actionTimerTick_fixed_fields (cooldownTick (needsDecayRestore c dt) dt) dt
  exact ⟨h1, h2, h3, h4, h5, h6, h7, h8, h9, h10, h11, h12, h13, h14⟩

theorem update_needs_food_level (c : Character) (dt : ℚ) :
    (c.update_needs dt).food_level =
      if c.is_eating then min 100 (c.food_level + 25 * dt)
      else max 0 (c.food_level - 0.5 * dt) := by
  have h := (actionTimerTick_fixed_fields (cooldownTick (needsDecayRestore c dt) dt)
    dt).2.2.2.2.2.2.2.2.2.2.2.2.2.2.1
  refine Eq.trans h ?_
  show (needsDecayRestore c dt).food_level = _
  by_cases he : c.is_eating <;> simp [needsDecayRestore, he]

theorem update_needs_water_level (c : Character) (dt : ℚ) :
    (c.update_needs dt).water_level =
      if c.is_drinking then min 100 (c.water_level + 50 * dt)
      else max 0 (c.water_level - 0.8 * dt) := by
  have h := (actionTimerTick_fixed_fields (cooldownTick (needsDecayRestore c dt) dt)
    dt).2.2.2.2.2.2.2.2.2.2.2.2.2.2.2.1
  refine Eq.trans h ?_
  show (needsDecayRestore c dt).water_level = _
  by_cases hd : c.is_drinking <;> simp [needsDecayRestore, hd]

theorem update_needs_sleep_level (c : Character) (dt : ℚ) :
    (c.update_needs dt).sleep_level =
      if c.is_sleeping then min 100 (c.sleep_level + 20 * dt)
      else max 0 (c.sleep_level - 0.3 * dt) := by
  have h := (actionTimerTick_fixed_fields (cooldownTick (needsDecayRestore c dt) dt)
    dt).2.2.2.2.2.2.2.2.2.2.2.2.2.2.2.2.1
  refine Eq.trans h ?_
  show (needsDecayRestore c dt).sleep_level = _
  by_cases hs : c.is_sleeping <;> simp [needsDecayRestore, hs]

theorem update_needs_cooldown (c : Character) (dt : ℚ) :
    (c.update_needs dt).breeding_cooldown =
      if 0 < c.breeding_cooldown then c.breeding_cooldown - dt
      else c.breeding_cooldown := by
  have h := (actionTimerTick_fixed_fields (cooldownTick (needsDecayRestore c dt) dt)
    dt).2.2.2.2.2.2.2.2.2.2.2.2.2.2.2.2.2
  exact h

theorem update_needs_flag_imp (c : Character) (dt : ℚ) :
    ((c.update_needs dt).is_eating = true → c.is_eating = true) ∧
    ((c.update_needs dt).is_drinking = true → c.is_drinking = true) ∧
    ((c.update_needs dt).is_sleeping = true → c.is_sleeping = true) :=
  actionTimerTick_flag_imp (cooldownTick (needsDecayRestore c dt) dt) dt

theorem needsOK_update_needs {c : Character} {dt : ℚ} (hdt : 0 ≤ dt) (h : NeedsOK c) :
    NeedsOK (c.update_needs dt) := by
  obtain ⟨h1, h2, h3, h4, h5, h6⟩ := h
  refine ⟨?_, ?_, ?_, ?_, ?_, ?_⟩
  · rw [update_needs_food_level]
    split_ifs
    · exact le_min (by norm_num) (by linarith)
    · exact le_max_left 0 _
  · rw [update_needs_food_level]
    split_ifs
    · exact min_le_left 100 _
    · exact max_le (by norm_num) (by linarith)
  · rw [update_needs_water_level]
    split_ifs
    · exact le_min (by norm_num) (by linarith)
    · exact le_max_left 0 _
  · rw [update_needs_water_level]
    split_ifs
    · exact min_le_left 100 _
    · exact max_le (by norm_num) (by linarith)
  · rw [update_needs_sleep_level]
    split_ifs
    · exact le_min (by norm_num) (by linarith)
    · exact le_max_left 0 _
  · rw [update_needs_sleep_level]
    split_ifs
    · exact min_le_left 100 _
    · exact max_le (by norm_num) (by linarith)

theorem flagsOK_update_needs {c : Character} {dt : ℚ} (h : FlagsOK c) :
    FlagsOK (c.update_needs dt) := by
  obtain ⟨himp1, himp2, himp3⟩ := update_needs_flag_imp c dt
  have hbr := (update_needs_fixed_fields c dt).2.2.2.2.2.2.2.1
  obtain ⟨he, hd, hb⟩ := h
  refine ⟨fun h1 => ⟨?_, ?_⟩, fun h1 => ?_, fun h1 => ⟨?_, ?_, ?_⟩⟩
  · cases hcase : (c.update_needs dt).is_drinking
    · rfl
    · exact absurd (he (himp1 h1)).1 (by simp [himp2 hcase])
  · cases hcase : (c.update_needs dt).is_sleeping
    · rfl
    · exact absurd (he (himp1 h1)).2 (by simp [himp3 hcase])
  · cases hcase : (c.update_needs dt).is_sleeping
    · rfl
    · exact absurd (hd (himp2 h1)) (by simp [himp3 hcase])
  · cases hcase : (c.update_needs dt).is_eating
    · rfl
    · exact absurd (hb (hbr ▸ h1)).1 (by simp [himp1 hcase])
  · cases hcase : (c.update_needs dt).is_drinking
    · rfl
    · exact absurd (hb (hbr ▸ h1)).2.1 (by simp [himp2 hcase])
  · cases hcase : (c.update_needs dt).is_sleeping
    · rfl
    · exact absurd (hb (hbr ▸ h1)).2.2 (by simp [himp3 hcase])

theorem rInv_update_needs {c : Character} {dt : ℚ} (hdt : 0 ≤ dt) (h : RInv c) :
    RInv (c.update_needs dt) :=
  ⟨needsOK_update_needs hdt h.1, flagsOK_update_needs h.2⟩


/-- C8: whenever a sleeping rabbit's action_timer reaches 0 during
update_needs (it was positive and the decrement makes it nonpositive, while
the rabbit is sleeping and neither eating nor drinking), is_sleeping is
cleared exactly when the restored sleep_level has reached 100; otherwise
the rabbit remains asleep and the timer is reset to
(100 - sleep_level) / 20 seconds, so timer expiry never wakes a rabbit
whose sleep_level is below 100. -/
theorem C8_sleep_timer_expiry (c : Character) (dt : ℚ)
    (hs : c.is_sleeping = true) (he : c.is_eating = false) (hd : c.is_drinking = false)
    (ht : 0 < c.action_timer) (hexp : c.action_timer - dt ≤ 0) :
    ((c.update_needs dt).is_sleeping = false ↔ 100 ≤ (c.update_needs dt).sleep_level) ∧
    ((c.update_needs dt).sleep_level < 100 →
      (c.update_needs dt).is_sleeping = true ∧
      (c.update_needs dt).action_timer = (100 - (c.update_needs dt).sleep_level) / 20) := by
  have key : ∀ Y : Character, Y.is_sleeping = true → Y.is_eating = false →
      Y.is_drinking = false → 0 < Y.action_timer → Y.action_timer - dt ≤ 0 →
      ((actionTimerTick Y dt).is_sleeping = if 100 ≤ Y.sleep_level then false else true) ∧
      (¬ 100 ≤ Y.sleep_level →
        (actionTimerTick Y dt).action_timer = (100 - Y.sleep_level) / 20) := by
    intro Y hs2 he2 hd2 ht2 hexp2
    simp only [actionTimerTick]
    rw [if_pos ht2, if_pos hexp2]
    simp only [he2, hd2, hs2, Bool.false_eq_true, if_false, if_true]
    split_ifs with hfull2 <;> simp_all
  have hY := key (cooldownTick (needsDecayRestore c dt) dt) hs he hd ht hexp
  have hsl : (c.update_needs dt).sleep_level = min 100 (c.sleep_level + 20 * dt) := by
    rw [update_needs_sleep_level, if_pos hs]
  have hYsleep : (cooldownTick (needsDecayRestore c dt) dt).sleep_level =
      min 100 (c.sleep_level + 20 * dt) := by
    show (needsDecayRestore c dt).sleep_level = _
    simp [needsDecayRestore, hs]
  rw [hYsleep] at hY
  by_cases hfull : (100 : ℚ) ≤ min 100 (c.sleep_level + 20 * dt)
  · have hwake : (c.update_needs dt).is_sleeping = false := by
      show (actionTimerTick (cooldownTick (needsDecayRestore c dt) dt) dt).is_sleeping = false
      rw [hY.1, if_pos hfull]
    refine ⟨⟨fun _ => ?_, fun _ => hwake⟩, fun hlt => absurd (hsl ▸ hfull) (not_le.mpr hlt)⟩
    exact hsl ▸ hfull
  · have hstay : (c.update_needs dt).is_sleeping = true := by
      show (actionTimerTick (cooldownTick (needsDecayRestore c dt) dt) dt).is_sleeping = true
      rw [hY.1, if_neg hfull]
    have htim : (c.update_needs dt).action_timer =
        (100 - min 100 (c.sleep_level + 20 * dt)) / 20 := by
      show (actionTimerTick (cooldownTick (needsDecayRestore c dt) dt) dt).action_timer = _
      exact hY.2 hfull
    refine ⟨⟨fun hf => absurd hstay (by simp [hf]), fun hge => absurd (hsl ▸ hge) hfull⟩,
      fun _ => ⟨hstay, by rw [htim, hsl]⟩⟩

/-- Witness for C8 at a concrete sleeping rabbit: sleep 80, timer 0.016,
dt = 0.016.  The restored sleep level is 80.32, so the rabbit stays asleep
with the timer reset to (100 - 80.32) / 20. -/
theorem C8_sleep_timer_expiry_witness :
    let c : Character :=
      { mkRabbit 0 100 100 with is_sleeping := true, sleep_level := 80, action_timer := 0.016 }
    ((c.update_needs 0.016).is_sleeping = false ↔ 100 ≤ (c.update_needs 0.016).sleep_level) ∧
    ((c.update_needs 0.016).sleep_level < 100 →
      (c.update_needs 0.016).is_sleeping = true ∧
      (c.update_needs 0.016).action_timer = (100 - (c.update_needs 0.016).sleep_level) / 20) :=
  C8_sleep_timer_expiry _ _ rfl rfl rfl (by norm_num [mkRabbit]) (by norm_num [mkRabbit])



theorem farmInv_step (b : Block) (dt : ℚ) (hb : FarmInv b) (hdt : 0 ≤ dt) :
    FarmInv (b.update_growth dt) := by
  obtain ⟨hf, hgt, h0, h3, h2, h3t⟩ := hb
  simp only [Block.update_growth, hf, if_true, hgt]
  split_ifs with hs0 hlt hp1 hp1' hp2 <;> simp_all [FarmInv] <;> linarith

theorem growSeq_inv (b : Block) (dts : List ℚ) (hb : FarmInv b)
    (hdts : ∀ d ∈ dts, 0 ≤ d) : FarmInv (growSeq b dts) := by
  induction dts generalizing b with
  | nil => exact hb
  | cons d rest ih =>
    exact ih _ (farmInv_step b d hb (hdts d (by simp))) (fun e he => hdts e (by simp [he]))

theorem update_growth_mono (b : Block) (dt : ℚ) (hb : FarmInv b) (hdt : 0 ≤ dt) :
    b.growth_stage ≤ (b.update_growth dt).growth_stage := by
  obtain ⟨hf, hgt, h0, h3, h2, h3t⟩ := hb
  simp only [Block.update_growth, hf, if_true, hgt]
  split_ifs with hs0 hlt hp1 hp2 hp3
  · show b.growth_stage ≤ 1
    omega
  · exact le_refl _
  · have hno2 : b.growth_stage ≠ 2 := by
      intro h2c
      have ht := h2 h2c
      have : (0.33 : ℚ) ≤ (b.growth_timer + dt) / 10 := by linarith
      linarith
    show b.growth_stage ≤ 1
    omega
  · show b.growth_stage ≤ 2
    omega
  · show b.growth_stage ≤ 3
    omega
  · exact le_refl _

theorem update_growth_stage3_iff (b : Block) (dt : ℚ) (hb : FarmInv b) (hdt : 0 ≤ dt)
    (h1 : 1 ≤ b.growth_stage) :
    ((b.update_growth dt).growth_stage = 3 ↔ 6.6 ≤ (b.update_growth dt).growth_timer) := by
  obtain ⟨hf, hgt, h0, h3, h2, h3t⟩ := hb
  simp only [Block.update_growth, hf, if_true, hgt]
  split_ifs with hs0 hlt hp1 hp2 hp3
  · omega
  · omega
  · show (1 = 3) ↔ 6.6 ≤ b.growth_timer + dt
    constructor
    · intro h
      exact absurd h (by decide)
    · intro h
      exfalso
      linarith
  · show (2 = 3) ↔ 6.6 ≤ b.growth_timer + dt
    constructor
    · intro h
      exact absurd h (by decide)
    · intro h
      exfalso
      linarith
  · show (3 = 3) ↔ 6.6 ≤ b.growth_timer + dt
    have : (6.6 : ℚ) ≤ b.growth_timer + dt := by linarith
    simp [this]
  · have hst : b.growth_stage = 3 := by omega
    simp [hst, h3t hst]

/-- C6: from a freshly placed farm, over any sequence of update_growth
calls with nonnegative time steps, growth_stage never decreases; once the
farm is planted (stage at least 1), immediately after any further
update_growth call the stage is 3 exactly when growth_timer has reached
0.66 of growth_time; and harvest resets a stage-3 farm to stage 0 with
timer 0 and returns true, while on any other block it returns false and
changes nothing. -/
theorem C6_farm_growth (idn : ℕ) (x y : ℚ) (dts : List ℚ) (dt : ℚ) (b : Block)
    (hdts : ∀ d ∈ dts, 0 ≤ d) (hdt : 0 ≤ dt) :
    ((growSeq (mkBlock idn x y BlockType.farm) dts).growth_stage ≤
      ((growSeq (mkBlock idn x y BlockType.farm) dts).update_growth dt).growth_stage) ∧
    (1 ≤ (growSeq (mkBlock idn x y BlockType.farm) dts).growth_stage →
      (((growSeq (mkBlock idn x y BlockType.farm) dts).update_growth dt).growth_stage = 3 ↔
        0.66 * (growSeq (mkBlock idn x y BlockType.farm) dts).growth_time ≤
          ((growSeq (mkBlock idn x y BlockType.farm) dts).update_growth dt).growth_timer)) ∧
    (b.block_type = BlockType.farm ∧ b.growth_stage = 3 →
      b.harvest = (true, { b with growth_stage := 0, growth_timer := 0 })) ∧
    (¬(b.block_type = BlockType.farm ∧ b.growth_stage = 3) → b.harvest = (false, b)) := by
  have hinv : FarmInv (growSeq (mkBlock idn x y BlockType.farm) dts) :=
    growSeq_inv _ dts (by simp [FarmInv, mkBlock]) hdts
  refine ⟨update_growth_mono _ dt hinv hdt, fun h1 => ?_, fun hh => ?_, fun hh => ?_⟩
  · have hgt : (growSeq (mkBlock idn x y BlockType.farm) dts).growth_time = 10 := hinv.2.1
    have h66 : (0.66 : ℚ) * 10 = 6.6 := by norm_num
    rw [hgt, h66]
    exact update_growth_stage3_iff _ dt hinv hdt h1
  · simp only [Block.harvest, if_pos hh]
  · simp only [Block.harvest, if_neg hh]

/-- Witness for C6: one second of growth plants the farm (stage 1), a
further 6.6 seconds reaches stage 3 exactly at the 0.66 threshold; the
harvest clauses are checked on a concrete stage-3 farm. -/
theorem C6_farm_growth_witness :
    ((growSeq (mkBlock 0 100 200 BlockType.farm) [1]).growth_stage ≤
      ((growSeq (mkBlock 0 100 200 BlockType.farm) [1]).update_growth 6.6).growth_stage) ∧
    (1 ≤ (growSeq (mkBlock 0 100 200 BlockType.farm) [1]).growth_stage →
      (((growSeq (mkBlock 0 100 200 BlockType.farm) [1]).update_growth 6.6).growth_stage = 3 ↔
        0.66 * (growSeq (mkBlock 0 100 200 BlockType.farm) [1]).growth_time ≤
          ((growSeq (mkBlock 0 100 200 BlockType.farm) [1]).update_growth 6.6).growth_timer)) ∧
    (({ mkBlock 1 0 0 BlockType.farm with growth_stage := 3 } : Block).block_type =
        BlockType.farm ∧
      ({ mkBlock 1 0 0 BlockType.farm with growth_stage := 3 } : Block).growth_stage = 3 →
      ({ mkBlock 1 0 0 BlockType.farm with growth_stage := 3 } : Block).harvest =
        (true, { ({ mkBlock 1 0 0 BlockType.farm with growth_stage := 3 } : Block) with
                   growth_stage := 0, growth_timer := 0 })) ∧
    (¬(({ mkBlock 1 0 0 BlockType.farm with growth_stage := 3 } : Block).block_type =
          BlockType.farm ∧
       ({ mkBlock 1 0 0 BlockType.farm with growth_stage := 3 } : Block).growth_stage = 3) →
      ({ mkBlock 1 0 0 BlockType.farm with growth_stage := 3 } : Block).harvest =
        (false, { mkBlock 1 0 0 BlockType.farm with growth_stage := 3 })) :=
  C6_farm_growth 0 100 200 [1] 6.6 _ (by norm_num) (by norm_num)

theorem any_false_of_forall {α : Type} (l : List α) (p : α → Bool)
    (h : ∀ a ∈ l, p a = false) : l.any p = false := by
  induction l with
  | nil => rfl
  | cons a t ih =>
    simp only [List.any_cons, h a (by simp), Bool.false_or]
    exact ih (fun b hb => h b (by simp [hb]))

theorem updateCharById_placed_blocks (w : World) (idn : ℕ) (f : Character → Character) :
    (w.updateCharById idn f).placed_blocks = w.placed_blocks := rfl

/-- C10: place_block checks no world bounds; for any coordinates, including
cells entirely outside the 2000 by 2000 world, placement returns true and
appends a block at the snapped cell whenever the cell rect intersects no
existing block and no character, and for a farm the warden holds at least
one carrot. -/
theorem C10_place_block_no_bounds (w : World) (x y : ℚ) (bt : BlockType)
    (hb : ∀ b ∈ w.placed_blocks,
        (Rect.intersects ⟨gridSnap x, gridSnap y, 50, 50⟩ b.get_rect) = false)
    (hc : ∀ c ∈ w.characters,
        (Rect.intersects ⟨gridSnap x, gridSnap y, 50, 50⟩ c.get_rect) = false)
    (hf : bt = BlockType.farm → ∃ wd, w.get_warden = some wd ∧ 1 ≤ wd.carrots) :
    (w.place_block x y bt).1 = true ∧
    (w.place_block x y bt).2.placed_blocks =
      w.placed_blocks ++
        [{ bid := w.next_id, x := gridSnap x, y := gridSnap y, block_type := bt }] := by
  by_cases hfarm : bt = BlockType.farm
  · obtain ⟨wd, hwd, hcar⟩ := hf hfarm
    have hnl : ¬ wd.carrots < 1 := not_lt.mpr hcar
    have hany1 : ((w.updateCharById wd.cid
        (fun c => { c with carrots := c.carrots - 1 })).placed_blocks.any
        (fun b => Rect.intersects ⟨gridSnap x, gridSnap y, 50, 50⟩ b.get_rect)) = false := by
      rw [updateCharById_placed_blocks]
      exact any_false_of_forall _ _ hb
    have hany2 : ((w.updateCharById wd.cid
        (fun c => { c with carrots := c.carrots - 1 })).characters.any
        (fun c => Rect.intersects ⟨gridSnap x, gridSnap y, 50, 50⟩ c.get_rect)) = false := by
      apply any_false_of_forall
      intro c hcmem
      simp only [World.updateCharById, List.mem_map] at hcmem
      obtain ⟨c0, hc0, hc0eq⟩ := hcmem
      subst hc0eq
      by_cases hcid : c0.cid = wd.cid
      · simp only [hcid, if_true]
        exact hc c0 hc0
      · simp only [hcid, if_false]
        exact hc c0 hc0
    simp only [World.place_block, hfarm, if_true, hwd, hnl, if_false, hany1, hany2,
      Bool.false_eq_true]
    exact ⟨trivial, rfl⟩
  · have hany1 : (w.placed_blocks.any
        (fun b => Rect.intersects ⟨gridSnap x, gridSnap y, 50, 50⟩ b.get_rect)) = false :=
      any_false_of_forall _ _ hb
    have hany2 : (w.characters.any
        (fun c => Rect.intersects ⟨gridSnap x, gridSnap y, 50, 50⟩ c.get_rect)) = false :=
      any_false_of_forall _ _ hc
    simp only [World.place_block, hfarm, if_false, hany1, hany2, Bool.false_eq_true]
    exact ⟨trivial, trivial⟩


/-- Witness for C10: placing a wall at (3000, 3000), a cell entirely
outside the 2000 by 2000 world, succeeds on the initial world. -/
theorem C10_place_block_no_bounds_witness :
    (W0.place_block 3000 3000 BlockType.wall).1 = true ∧
    (W0.place_block 3000 3000 BlockType.wall).2.placed_blocks =
      W0.placed_blocks ++
        [{ bid := W0.next_id, x := gridSnap 3000, y := gridSnap 3000,
           block_type := BlockType.wall }] :=
  C10_place_block_no_bounds W0 3000 3000 BlockType.wall (by with_unfolding_all decide)
    (by with_unfolding_all decide) (fun h => absurd h (by decide))

/-- C1 counterexample: placing a Farm on the occupied cell (300, 300) of
the initial world (a Food block sits there) returns false, yet the warden's
carrot counter drops from 10 to 9 — the farm branch deducts the carrot
before the occupancy test — so a failing mutation does not leave the whole
world state unchanged. -/
theorem C1_counterexample_farm_carrot_loss :
    (W0.place_block 300 300 BlockType.farm).1 = false ∧
    W0.get_warden.map (fun c => c.carrots) = some 10 ∧
    ((W0.place_block 300 300 BlockType.farm).2.get_warden.map (fun c => c.carrots)) = some 9 := by
  refine ⟨?_, ?_, ?_⟩ <;> with_unfolding_all decide

/-- C1 amended: a failing remove_block or toggle_door leaves the world
unchanged, and a failing place_block leaves the world unchanged except in
one case: a Farm placement that passes the carrot check (warden present
with at least one carrot) and then fails on occupancy has deducted exactly
one carrot from the warden, leaving blocks, character positions, items and
bullets untouched. -/
theorem C1_amended_failing_mutations (w : World) (x y : ℚ) (bt : BlockType) :
    ((w.remove_block x y).1 = false → (w.remove_block x y).2 = w) ∧
    (∀ prim, (w.toggle_door prim x y).1 = false → (w.toggle_door prim x y).2 = w) ∧
    ((w.place_block x y bt).1 = false →
      (w.place_block x y bt).2 = w ∨
      (bt = BlockType.farm ∧
        ∃ wd, w.get_warden = some wd ∧ 1 ≤ wd.carrots ∧
          (w.place_block x y bt).2 =
            w.updateCharById wd.cid (fun c => { c with carrots := c.carrots - 1 }))) := by
  refine ⟨?_, ?_, ?_⟩
  · simp only [World.remove_block]
    split_ifs with h
    · intro hfail
      exact absurd hfail (by simp)
    · intro _
      rfl
  · intro prim
    simp only [World.toggle_door]
    cases hfind : w.placed_blocks.find? (fun b =>
        decide (b.block_type = BlockType.door) && decide (b.x = gridSnap x) &&
        decide (b.y = gridSnap y)) with
    | none =>
      intro _
      rfl
    | some blk =>
      dsimp only
      split_ifs with hopen <;> intro hfail <;> exact absurd hfail (by simp)
  · by_cases hfarm : bt = BlockType.farm
    · cases hw : w.get_warden with
      | none =>
        simp only [World.place_block, hfarm, if_true, hw]
        intro _
        left
        trivial
      | some wd =>
        by_cases hcar : wd.carrots < 1
        · simp only [World.place_block, hfarm, if_true, hw, hcar, if_true]
          intro _
          left
          trivial
        · simp only [World.place_block, hfarm, if_true, hw, hcar, if_false]
          split_ifs with h1 h2 <;> intro hfail
          · right
            exact ⟨trivial, wd, rfl, not_lt.mp hcar, rfl⟩
          · right
            exact ⟨trivial, wd, rfl, not_lt.mp hcar, rfl⟩
          · exact absurd hfail (by simp)
    · simp only [World.place_block, hfarm, if_false]
      split_ifs with h1 h2 <;> intro hfail
      · left
        rfl
      · left
        rfl
      · exact absurd hfail (by simp)

/-- Witness for C1 (amended) at concrete failing operations on the initial
world: removing a block from the empty cell (0, 0) and toggling a door
there both fail and leave the world unchanged, and a failing non-farm
placement on the occupied cell (300, 300) leaves the world unchanged. -/
theorem C1_amended_failing_mutations_witness :
    (W0.remove_block 0 0).2 = W0 ∧ (W0.toggle_door dummyPrim 0 0).2 = W0 ∧
    ((W0.place_block 300 300 BlockType.wall).2 = W0 ∨
      (BlockType.wall = BlockType.farm ∧
        ∃ wd, W0.get_warden = some wd ∧ 1 ≤ wd.carrots ∧
          (W0.place_block 300 300 BlockType.wall).2 =
            W0.updateCharById wd.cid (fun c => { c with carrots := c.carrots - 1 }))) :=
  ⟨(C1_amended_failing_mutations W0 0 0 BlockType.wall).1 (by with_unfolding_all decide),
   (C1_amended_failing_mutations W0 0 0 BlockType.wall).2.1 dummyPrim
     (by with_unfolding_all decide),
   (C1_amended_failing_mutations W0 300 300 BlockType.wall).2.2
     (by with_unfolding_all decide)⟩


theorem nearestAux_spec (p : Block → Bool) (x y maxd : ℚ) (l : List Block) :
    ∀ best : Option Block,
      (∀ c, best = some c → p c = true ∧ 0 < maxd ∧
          distSq x y c.interactionX c.interactionY < maxd * maxd) →
      ∀ b, nearestAux p x y maxd l best = some b →
        (∀ c, best = some c → b = c ∨
          distSq x y b.interactionX b.interactionY < distSq x y c.interactionX c.interactionY) ∧
        (p b = true ∧ 0 < maxd ∧ distSq x y b.interactionX b.interactionY < maxd * maxd) ∧
        (∀ b2 ∈ l, p b2 = true →
          distSq x y b.interactionX b.interactionY ≤
            distSq x y b2.interactionX b2.interactionY) ∧
        ((∃ l1 l2, l = l1 ++ b :: l2 ∧ ∀ b2 ∈ l1, p b2 = true →
            distSq x y b.interactionX b.interactionY <
              distSq x y b2.interactionX b2.interactionY) ∨
          best = some b) := by
  induction l with
  | nil =>
    intro best hbest b hb
    simp only [nearestAux] at hb
    refine ⟨?_, hbest b hb, ?_, Or.inr hb⟩
    · intro c hc
      rw [hb] at hc
      exact Or.inl (Option.some.inj hc)
    · intro b2 hb2
      exact absurd hb2 (List.not_mem_nil b2)
  | cons b0 rest ih =>
    intro best hbest b hb
    simp only [nearestAux] at hb
    by_cases hcond : (p b0 && nearBeats x y maxd b0 best) = true
    · rw [if_pos hcond] at hb
      have hsplit : p b0 = true ∧ nearBeats x y maxd b0 best = true := by
        simpa [Bool.and_eq_true] using hcond
      obtain ⟨hpb0, hbeats⟩ := hsplit
      have hbound0 : 0 < maxd ∧
          distSq x y b0.interactionX b0.interactionY < maxd * maxd := by
        cases hbv : best with
        | none =>
          rw [hbv] at hbeats
          simp only [nearBeats, Bool.and_eq_true, decide_eq_true_eq] at hbeats
          exact hbeats
        | some c0 =>
          rw [hbv] at hbeats
          simp only [nearBeats, decide_eq_true_eq] at hbeats
          obtain ⟨_, hm, hc0⟩ := hbest c0 hbv
          exact ⟨hm, lt_trans hbeats hc0⟩
      have hbest' : ∀ c, (some b0 : Option Block) = some c → p c = true ∧ 0 < maxd ∧
          distSq x y c.interactionX c.interactionY < maxd * maxd := by
        intro c hc
        cases Option.some.inj hc
        exact ⟨hpb0, hbound0⟩
      obtain ⟨ih0, ih1, ih2, ih3⟩ := ih (some b0) hbest' b hb
      have hb_b0 : b = b0 ∨
          distSq x y b.interactionX b.interactionY <
            distSq x y b0.interactionX b0.interactionY := ih0 b0 rfl
      refine ⟨?_, ih1, ?_, ?_⟩
      · intro c hc
        rw [hc] at hbeats
        simp only [nearBeats, decide_eq_true_eq] at hbeats
        rcases hb_b0 with he | hlt
        · exact Or.inr (he ▸ hbeats)
        · exact Or.inr (lt_trans hlt hbeats)
      · intro b2 hb2 hp2
        rcases List.mem_cons.mp hb2 with h | h
        · rcases hb_b0 with he | hlt
          · rw [he, h]
          · exact h ▸ le_of_lt hlt
        · exact ih2 b2 h hp2
      · rcases hb_b0 with he | hlt
        · left
          exact ⟨[], rest, by rw [List.nil_append, he],
            by intro b2 hb2 _; exact absurd hb2 (List.not_mem_nil b2)⟩
        · rcases ih3 with ⟨l1, l2, hdec, hstrict⟩ | heq
          · left
            refine ⟨b0 :: l1, l2, by rw [hdec, List.cons_append], ?_⟩
            intro b2 hb2 hp2
            rcases List.mem_cons.mp hb2 with h | h
            · exact h ▸ hlt
            · exact hstrict b2 h hp2
          · exfalso
            cases Option.some.inj heq
            exact lt_irrefl _ hlt
    · rw [if_neg hcond] at hb
      obtain ⟨ih0, ih1, ih2, ih3⟩ := ih best hbest b hb
      have hnb : ∀ _ : p b0 = true, nearBeats x y maxd b0 best = false := by
        intro hp
        cases hnn : nearBeats x y maxd b0 best
        · rfl
        · exact absurd (by rw [hp, hnn]; rfl) hcond
      have hle_b0 : p b0 = true →
          distSq x y b.interactionX b.interactionY ≤
            distSq x y b0.interactionX b0.interactionY := by
        intro hp
        have hnb2 := hnb hp
        cases hbv : best with
        | none =>
          rw [hbv] at hnb2
          simp only [nearBeats, Bool.and_eq_false_iff, decide_eq_false_iff_not, not_lt] at hnb2
          rcases hnb2 with hm | hfar
          · exact absurd ih1.2.1 (not_lt.mpr hm)
          · exact le_trans (le_of_lt ih1.2.2) hfar
        | some c0 =>
          rw [hbv] at hnb2
          simp only [nearBeats, decide_eq_false_iff_not, not_lt] at hnb2
          rcases ih0 c0 hbv with he | hlt
          · exact he ▸ hnb2
          · exact le_trans (le_of_lt hlt) hnb2
      refine ⟨ih0, ih1, ?_, ?_⟩
      · intro b2 hb2 hp2
        rcases List.mem_cons.mp hb2 with h | h
        · exact h ▸ hle_b0 (h ▸ hp2)
        · exact ih2 b2 h hp2
      · cases hbv : best with
        | none =>
          rcases ih3 with ⟨l1, l2, hdec, hstrict⟩ | heq
          · left
            refine ⟨b0 :: l1, l2, by rw [hdec, List.cons_append], ?_⟩
            intro b2 hb2 hp2
            rcases List.mem_cons.mp hb2 with h | h
            · subst h
              have hnb2 := hnb hp2
              rw [hbv] at hnb2
              simp only [nearBeats, Bool.and_eq_false_iff, decide_eq_false_iff_not,
                not_lt] at hnb2
              rcases hnb2 with hm | hfar
              · exact absurd ih1.2.1 (not_lt.mpr hm)
              · exact lt_of_lt_of_le ih1.2.2 hfar
            · exact hstrict b2 h hp2
          · rw [hbv] at heq
            cases heq
        | some c0 =>
          rcases ih0 c0 hbv with he | hlt
          · right
            rw [he]
          · rcases ih3 with ⟨l1, l2, hdec, hstrict⟩ | heq
            · left
              refine ⟨b0 :: l1, l2, by rw [hdec, List.cons_append], ?_⟩
              intro b2 hb2 hp2
              rcases List.mem_cons.mp hb2 with h | h
              · subst h
                have hnb2 := hnb hp2
                rw [hbv] at hnb2
                simp only [nearBeats, decide_eq_false_iff_not, not_lt] at hnb2
                exact lt_of_lt_of_le hlt hnb2
              · exact hstrict b2 h hp2
            · exfalso
              rw [hbv] at heq
              cases Option.some.inj heq
              exact lt_irrefl _ hlt

/-- C9: each of the three nearest-block queries returns a block only if the
distance from the query point to the block's center is strictly below
max_distance (a qualifying block at exactly max_distance is never
returned, and with no strictly closer block the result is none), the
returned block minimises the distance among qualifying blocks, and among
equally distant qualifying blocks the earliest in the placed-block list is
returned.  Distances appear in exact squared form. -/
theorem C9_nearest_block_queries (w : World) (x y maxd : ℚ) (b : Block) :
    (w.find_nearest_food_block x y maxd = some b →
      NearestSpec (fun b2 => decide (b2.block_type = BlockType.food)) w x y maxd b) ∧
    (w.find_nearest_water_block x y maxd = some b →
      NearestSpec (fun b2 => decide (b2.block_type = BlockType.water)) w x y maxd b) ∧
    (w.find_nearest_harvestable_farm x y maxd = some b →
      NearestSpec (fun b2 => decide (b2.block_type = BlockType.farm) && b2.is_harvestable)
        w x y maxd b) := by
  refine ⟨fun h => ?_, fun h => ?_, fun h => ?_⟩ <;>
    obtain ⟨h0, h1, h2, h3⟩ := nearestAux_spec _ x y maxd w.placed_blocks none
      (fun c hc => by cases hc) b h <;>
    refine ⟨h1.1, h1.2.1, h1.2.2, h2, ?_⟩ <;>
    rcases h3 with hpos | heq <;> first
      | exact hpos
      | cases heq

set_option maxRecDepth 8000 in
/-- Witness for C9: on the initial world, the nearest food block to the
query point (0, 0) with the default bound 500 is the block at (300, 300),
and with bound 900 the nearest water block is the one at (500, 500). -/
theorem C9_nearest_block_queries_witness :
    NearestSpec (fun b2 => decide (b2.block_type = BlockType.food)) W0 0 0 500
      (mkBlock 7 300 300 BlockType.food) ∧
    NearestSpec (fun b2 => decide (b2.block_type = BlockType.water)) W0 0 0 900
      (mkBlock 10 500 500 BlockType.water) :=
  ⟨(C9_nearest_block_queries W0 0 0 500 (mkBlock 7 300 300 BlockType.food)).1
      (by with_unfolding_all decide),
   (C9_nearest_block_queries W0 0 0 900 (mkBlock 10 500 500 BlockType.water)).2.1
      (by with_unfolding_all decide)⟩


/-- C2 code bug: closing the door of `doorWorld` relocates the warden via
_find_closest_free_space, whose ring search never tests the world bounds:
the first free candidate cell is (-50, 150), outside the world, so the
warden ends at (-25, 175) and its bounding box leaves [0, 2000] x [0, 2000]
(x - size/2 = -35 < 0), violating the collision-containment invariant the
claim states for all reachable states. -/
theorem C2_door_pushout_leaves_world :
    (doorWorld.toggle_door dummyPrim 0 100).1 = true ∧
    ((doorWorld.toggle_door dummyPrim 0 100).2.get_warden.map
      (fun c => (c.x, c.y, decide (c.x - c.size / 2 < 0)))) = some (-25, 175, true) := by
  refine ⟨?_, ?_⟩ <;> with_unfolding_all decide

theorem move_towards_fixed_fields (c : Character) (prim : Prim) (w : World) (tx ty : ℚ) :
    (c.move_towards prim w tx ty).cid = c.cid ∧
    (c.move_towards prim w tx ty).character_type = c.character_type ∧
    (c.move_towards prim w tx ty).size = c.size ∧
    (c.move_towards prim w tx ty).speed = c.speed ∧
    (c.move_towards prim w tx ty).held_item = c.held_item ∧
    (c.move_towards prim w tx ty).carrots = c.carrots ∧
    (c.move_towards prim w tx ty).health = c.health ∧
    (c.move_towards prim w tx ty).food_level = c.food_level ∧
    (c.move_towards prim w tx ty).water_level = c.water_level ∧
    (c.move_towards prim w tx ty).sleep_level = c.sleep_level ∧
    (c.move_towards prim w tx ty).is_eating = c.is_eating ∧
    (c.move_towards prim w tx ty).is_drinking = c.is_drinking ∧
    (c.move_towards prim w tx ty).is_sleeping = c.is_sleeping ∧
    (c.move_towards prim w tx ty).is_breeding = c.is_breeding ∧
    (c.move_towards prim w tx ty).action_timer = c.action_timer ∧
    (c.move_towards prim w tx ty).target_facility = c.target_facility ∧
    (c.move_towards prim w tx ty).random_target_x = c.random_target_x ∧
    (c.move_towards prim w tx ty).random_target_y = c.random_target_y ∧
    (c.move_towards prim w tx ty).wait_timer = c.wait_timer ∧
    (c.move_towards prim w tx ty).is_waiting = c.is_waiting ∧
    (c.move_towards prim w tx ty).breeding_cooldown = c.breeding_cooldown ∧
    (c.move_towards prim w tx ty).breeding_partner = c.breeding_partner := by
  simp only [Character.move_towards, Character.move]
  split_ifs <;> and_intros <;> rfl


theorem StageOK.refl (c : Character) : StageOK c c :=
  ⟨rfl, rfl, rfl, rfl, rfl, rfl, rfl, rfl, fun h => h, fun _ h => h⟩

theorem StageOK.comp {a b c : Character} (h1 : StageOK a b) (h2 : StageOK b c) : StageOK a c :=
  ⟨h2.1.trans h1.1, h2.2.1.trans h1.2.1, h2.2.2.1.trans h1.2.2.1,
   h2.2.2.2.1.trans h1.2.2.2.1, h2.2.2.2.2.1.trans h1.2.2.2.2.1,
   h2.2.2.2.2.2.1.trans h1.2.2.2.2.2.1, h2.2.2.2.2.2.2.1.trans h1.2.2.2.2.2.2.1,
   h2.2.2.2.2.2.2.2.1.trans h1.2.2.2.2.2.2.2.1,
   fun h => h2.2.2.2.2.2.2.2.2.1 (h1.2.2.2.2.2.2.2.2.1 h),
   fun h hf => h2.2.2.2.2.2.2.2.2.2 (h1.2.2.2.2.2.2.2.2.1 h) (h1.2.2.2.2.2.2.2.2.2 h hf)⟩

theorem flagsOK_eating_shape {c : Character} (he : c.is_eating = true)
    (hd : c.is_drinking = false) (hs : c.is_sleeping = false) (hb : c.is_breeding = false) :
    FlagsOK c :=
  ⟨fun _ => ⟨hd, hs⟩, fun h => absurd h (by simp [hd]), fun h => absurd h (by simp [hb])⟩

theorem flagsOK_drinking_shape {c : Character} (hd : c.is_drinking = true)
    (he : c.is_eating = false) (hs : c.is_sleeping = false) (hb : c.is_breeding = false) :
    FlagsOK c :=
  ⟨fun h => absurd h (by simp [he]), fun _ => hs, fun h => absurd h (by simp [hb])⟩

theorem flagsOK_sleeping_shape {c : Character} (hs : c.is_sleeping = true)
    (he : c.is_eating = false) (hd : c.is_drinking = false) (hb : c.is_breeding = false) :
    FlagsOK c :=
  ⟨fun h => absurd h (by simp [he]), fun h => absurd h (by simp [hd]),
   fun h => absurd h (by simp [hb])⟩

theorem farmFoodStage_stageOK (w : World) (c1 : Character) :
    StageOK c1 (farmFoodStage w c1).1 := by
  simp only [farmFoodStage]
  cases w.find_nearest_harvestable_farm c1.x c1.y 500 with
  | some farm =>
    dsimp only
    split_ifs
    · exact ⟨rfl, rfl, rfl, rfl, rfl, rfl, rfl, rfl, fun h => h, fun hb _ =>
        flagsOK_eating_shape rfl rfl rfl hb⟩
    · exact ⟨rfl, rfl, rfl, rfl, rfl, rfl, rfl, rfl, fun h => h, fun _ hf => hf⟩
  | none =>
    dsimp only
    split_ifs with hfood
    · cases w.find_nearest_food_block c1.x c1.y 500 with
      | some fb =>
        dsimp only
        split_ifs
        · exact ⟨rfl, rfl, rfl, rfl, rfl, rfl, rfl, rfl, fun h => h, fun hb _ =>
            flagsOK_eating_shape rfl rfl rfl hb⟩
        · exact ⟨rfl, rfl, rfl, rfl, rfl, rfl, rfl, rfl, fun h => h, fun _ hf => hf⟩
      | none => exact StageOK.refl c1
    · exact StageOK.refl c1

theorem waterStage_stageOK (w : World) (st : Character × Option (ℚ × ℚ) × Bool) :
    StageOK st.1 (waterStage w st).1 := by
  simp only [waterStage]
  split_ifs with h1
  · cases w.find_nearest_water_block st.1.x st.1.y 500 with
    | some wb =>
      dsimp only
      split_ifs
      · exact ⟨rfl, rfl, rfl, rfl, rfl, rfl, rfl, rfl, fun h => h, fun hb _ =>
          flagsOK_drinking_shape rfl rfl rfl hb⟩
      · exact ⟨rfl, rfl, rfl, rfl, rfl, rfl, rfl, rfl, fun h => h, fun _ hf => hf⟩
    | none => exact StageOK.refl st.1
  · exact StageOK.refl st.1

theorem sleepStage_stageOK (w : World) (wx wy : ℚ) (st : Character × Option (ℚ × ℚ) × Bool) :
    StageOK st.1 (sleepStage w wx wy st).1 := by
  simp only [sleepStage]
  split_ifs
  · exact ⟨rfl, rfl, rfl, rfl, rfl, rfl, rfl, rfl, fun _ => rfl, fun _ _ =>
      flagsOK_sleeping_shape rfl rfl rfl rfl⟩
  · exact ⟨rfl, rfl, rfl, rfl, rfl, rfl, rfl, rfl, fun h => h, fun _ hf => hf⟩
  · exact StageOK.refl st.1

theorem next_stream (g : Rng) : g.next.2.stream = g.stream := rfl

theorem uniform_stream (g : Rng) (a b : ℚ) : (g.uniform a b).2.stream = g.stream := rfl

theorem wanderTarget_stream (prim : Prim) (w : World) (cx cy : ℚ) (g : Rng) :
    (wanderTarget prim w cx cy g).2.stream = g.stream := rfl

theorem flagsOK_congr {a b : Character} (he : b.is_eating = a.is_eating)
    (hd : b.is_drinking = a.is_drinking) (hs : b.is_sleeping = a.is_sleeping)
    (hb : b.is_breeding = a.is_breeding) (h : FlagsOK a) : FlagsOK b := by
  obtain ⟨h1, h2, h3⟩ := h
  refine ⟨fun x => ?_, fun x => ?_, fun x => ?_⟩
  · rw [hd, hs]
    exact h1 (he ▸ x)
  · rw [hs]
    exact h2 (hd ▸ x)
  · rw [he, hd, hs]
    exact h3 (hb ▸ x)

theorem stageOK_move_towards (c : Character) (prim : Prim) (w : World) (tx ty : ℚ) :
    StageOK c (c.move_towards prim w tx ty) := by
  obtain ⟨f1, f2, f3, f4, f5, f6, f7, f8, f9, f10, f11, f12, f13, f14, f15, f16, f17, f18,
    f19, f20, f21, f22⟩ := move_towards_fixed_fields c prim w tx ty
  exact ⟨f1, f2, f7, f21, f22, f8, f9, f10, fun h => f14.trans h,
    fun _ hf => flagsOK_congr f11 f12 f13 f14 hf⟩

theorem wanderOrMoveStage_shape (prim : Prim) (w : World) (g : Rng) (k : ℕ)
    (st : Character × Option (ℚ × ℚ) × Bool) :
    ∃ c2 g2, wanderOrMoveStage prim w g k st = (w.writeChar k c2, g2) ∧
      StageOK st.1 c2 ∧ g2.stream = g.stream := by
  simp only [wanderOrMoveStage]
  by_cases hcond : (st.2.2 = false ∧ 20 ≤ st.1.sleep_level)
  · rw [if_pos hcond]
    by_cases hwait : st.1.is_waiting = true
    · rw [if_pos hwait]
      by_cases htimer :
          ({ st.1 with wait_timer := st.1.wait_timer - 0.016 } : Character).wait_timer ≤ 0
      · rw [if_pos htimer]
        exact ⟨_, _, rfl,
          ⟨rfl, rfl, rfl, rfl, rfl, rfl, rfl, rfl, fun h => h, fun _ hf => hf⟩, rfl⟩
      · rw [if_neg htimer]
        exact ⟨_, _, rfl,
          ⟨rfl, rfl, rfl, rfl, rfl, rfl, rfl, rfl, fun h => h, fun _ hf => hf⟩, rfl⟩
    · rw [if_neg hwait]
      cases hrx : st.1.random_target_x with
      | some rx0 =>
        cases hry : st.1.random_target_y with
        | some ry0 =>
          simp only [hrx, hry]
          split_ifs with harr
          · exact ⟨_, _, rfl,
              ⟨rfl, rfl, rfl, rfl, rfl, rfl, rfl, rfl, fun h => h, fun _ hf => hf⟩, rfl⟩
          · exact ⟨_, _, rfl, stageOK_move_towards st.1 prim w rx0 ry0, rfl⟩
        | none =>
          simp only [hrx, hry]
          split_ifs with harr
          · exact ⟨_, _, rfl,
              ⟨rfl, rfl, rfl, rfl, rfl, rfl, rfl, rfl, fun h => h, fun _ hf => hf⟩, rfl⟩
          · refine ⟨_, _, rfl, ?_, rfl⟩
            exact StageOK.comp
              (⟨rfl, rfl, rfl, rfl, rfl, rfl, rfl, rfl, fun h => h, fun _ hf => hf⟩ :
                StageOK st.1 _)
              (stageOK_move_towards _ prim w _ _)
      | none =>
        simp only [hrx]
        split_ifs with harr
        · exact ⟨_, _, rfl,
            ⟨rfl, rfl, rfl, rfl, rfl, rfl, rfl, rfl, fun h => h, fun _ hf => hf⟩, rfl⟩
        · refine ⟨_, _, rfl, ?_, rfl⟩
          exact StageOK.comp
            (⟨rfl, rfl, rfl, rfl, rfl, rfl, rfl, rfl, fun h => h, fun _ hf => hf⟩ :
              StageOK st.1 _)
            (stageOK_move_towards _ prim w _ _)
  · rw [if_neg hcond]
    cases st.2.1 with
    | some tgt =>
      dsimp only
      exact ⟨_, _, rfl, stageOK_move_towards st.1 prim w tgt.1 tgt.2, rfl⟩
    | none =>
      exact ⟨_, _, rfl, StageOK.refl st.1, rfl⟩

theorem facilityPhase_shape (prim : Prim) (wx wy : ℚ) (w : World) (g : Rng) (k : ℕ)
    (c1 : Character) :
    ∃ c2 g2, facilityPhase prim wx wy w g k c1 = (w.writeChar k c2, g2) ∧
      StageOK c1 c2 ∧ g2.stream = g.stream := by
  obtain ⟨c2, g2, heq, hok, hstream⟩ := wanderOrMoveStage_shape prim w g k
    (sleepStage w wx wy (waterStage w (farmFoodStage w c1)))
  refine ⟨c2, g2, heq, ?_, hstream⟩
  exact ((farmFoodStage_stageOK w c1).comp
    ((waterStage_stageOK w _).comp (sleepStage_stageOK w wx wy _))).comp hok

theorem gatePhase_shape (prim : Prim) (wx wy : ℚ) (w : World) (g : Rng) (k : ℕ)
    (c1 : Character) :
    ∃ c2 g2, gatePhase prim wx wy w g k c1 = (w.writeChar k c2, g2) ∧
      (StageOK c1 c2 ∨ (c1.breeding_cooldown ≤ 0 ∧ c2 = c1.start_breeding)) ∧
      g2.stream = g.stream := by
  simp only [gatePhase, Rng.next]
  split_ifs with hg1 hdraw
  · exact ⟨_, _, rfl, Or.inr ⟨hg1.2.2.1, rfl⟩, rfl⟩
  · obtain ⟨c2, g2, heq, hok, hstream⟩ :=
      facilityPhase_shape prim wx wy w { g with idx := g.idx + 1 } k c1
    exact ⟨c2, g2, heq, Or.inl hok, hstream⟩
  · obtain ⟨c2, g2, heq, hok, hstream⟩ := facilityPhase_shape prim wx wy w g k c1
    exact ⟨c2, g2, heq, Or.inl hok, hstream⟩

theorem needsOK_of_stageOK {a b : Character} (h : StageOK a b) (hn : NeedsOK a) : NeedsOK b := by
  obtain ⟨_, _, _, _, _, hf, hw, hs, _, _⟩ := h
  refine ⟨?_, ?_, ?_, ?_, ?_, ?_⟩
  · rw [hf]
    exact hn.1
  · rw [hf]
    exact hn.2.1
  · rw [hw]
    exact hn.2.2.1
  · rw [hw]
    exact hn.2.2.2.1
  · rw [hs]
    exact hn.2.2.2.2.1
  · rw [hs]
    exact hn.2.2.2.2.2

theorem rInv_of_stageOK {a b : Character} (hab : a.is_breeding = false)
    (h : StageOK a b) (hr : RInv a) : RInv b :=
  ⟨needsOK_of_stageOK h hr.1, h.2.2.2.2.2.2.2.2.2 hab hr.2⟩

theorem rInv_start_breeding {c : Character} (h : RInv c) : RInv c.start_breeding := by
  refine ⟨h.1, ?_, ?_, fun _ => ⟨rfl, rfl, rfl⟩⟩
  · intro x
    exact absurd x (by simp [Character.start_breeding])
  · intro x
    exact absurd x (by simp [Character.start_breeding])

theorem allRInv_set {l : List Character} {k : ℕ} {c : Character}
    (hall : ∀ c0 ∈ l, RInv c0) (hc : RInv c) : ∀ c0 ∈ l.set k c, RInv c0 := by
  intro c0 hc0
  rcases List.mem_or_eq_of_mem_set hc0 with h | h
  · exact hall c0 h
  · exact h ▸ hc

theorem allRInv_updateById {w : World} {idn : ℕ} {f : Character → Character}
    (hall : ∀ c0 ∈ w.characters, RInv c0) (hf : ∀ c0, RInv c0 → RInv (f c0)) :
    ∀ c0 ∈ (w.updateCharById idn f).characters, RInv c0 := by
  intro c0 hc0
  simp only [World.updateCharById, List.mem_map] at hc0
  obtain ⟨c1, hm, he⟩ := hc0
  subst he
  by_cases h : c1.cid = idn
  · simp only [h, if_true]
    exact hf c1 (hall c1 hm)
  · simp only [h, if_false]
    exact hall c1 hm

theorem validRng_of_stream_eq {g g2 : Rng} (h : g2.stream = g.stream) (hg : ValidRng g) :
    ValidRng g2 := by
  intro n
  rw [h]
  exact hg n

theorem rInv_spawn (idn : ℕ) (x y : ℚ) (g : Rng) (hg : ValidRng g) :
    RInv (spawnRabbit idn x y g).1 := by
  have h0 := hg g.idx
  have h1 := hg (g.idx + 1)
  have h2 := hg (g.idx + 1 + 1)
  simp only [spawnRabbit, Rng.uniform, Rng.next]
  refine ⟨⟨?_, ?_, ?_, ?_, ?_, ?_⟩, ?_, ?_, ?_⟩
  · show (0 : ℚ) ≤ 50 + (100 - 50) * g.stream g.idx
    nlinarith [h0.1, h0.2]
  · show (50 : ℚ) + (100 - 50) * g.stream g.idx ≤ 100
    nlinarith [h0.1, h0.2]
  · show (0 : ℚ) ≤ 50 + (100 - 50) * g.stream (g.idx + 1)
    nlinarith [h1.1, h1.2]
  · show (50 : ℚ) + (100 - 50) * g.stream (g.idx + 1) ≤ 100
    nlinarith [h1.1, h1.2]
  · show (0 : ℚ) ≤ 50 + (100 - 50) * g.stream (g.idx + 1 + 1)
    nlinarith [h2.1, h2.2]
  · show (50 : ℚ) + (100 - 50) * g.stream (g.idx + 1 + 1) ≤ 100
    nlinarith [h2.1, h2.2]
  · intro x
    exact absurd x (by simp [mkRabbit])
  · intro x
    exact absurd x (by simp [mkRabbit])
  · intro x
    exact absurd x (by simp [mkRabbit])

theorem rInv_update_partner {c : Character} (p : Option ℕ) (h : RInv c) :
    RInv { c with breeding_partner := p } := h

theorem rInv_update_pos {c : Character} (nx ny : ℚ) (h : RInv c) :
    RInv { c with x := nx, y := ny } := h

theorem rInv_update_carrots {c : Character} (n : ℤ) (h : RInv c) :
    RInv { c with carrots := n } := h

theorem rInv_update_held {c : Character} (it : Option ℕ) (h : RInv c) :
    RInv { c with held_item := it } := h

theorem rInv_char_move {c : Character} (dx dy : ℚ) (h : RInv c) : RInv (c.move dx dy) := h

theorem rInv_move_towards {c : Character} (prim : Prim) (w : World) (tx ty : ℚ)
    (h : RInv c) : RInv (c.move_towards prim w tx ty) := by
  obtain ⟨f1, f2, f3, f4, f5, f6, f7, f8, f9, f10, f11, f12, f13, f14, f15, f16, f17, f18,
    f19, f20, f21, f22⟩ := move_towards_fixed_fields c prim w tx ty
  refine ⟨⟨?_, ?_, ?_, ?_, ?_, ?_⟩, flagsOK_congr f11 f12 f13 f14 h.2⟩
  · rw [f8]
    exact h.1.1
  · rw [f8]
    exact h.1.2.1
  · rw [f9]
    exact h.1.2.2.1
  · rw [f9]
    exact h.1.2.2.2.1
  · rw [f10]
    exact h.1.2.2.2.2.1
  · rw [f10]
    exact h.1.2.2.2.2.2

theorem rInv_breed_complete {c : Character} (h : RInv c) :
    RInv { c with is_breeding := false, breeding_cooldown := 30, breeding_partner := none,
                  random_target_x := none, random_target_y := none, is_waiting := false } :=
  ⟨h.1, h.2.1, h.2.2.1, fun hb => absurd hb (by simp)⟩

theorem rInv_breed_partner_clear {c : Character} (h : RInv c) :
    RInv { c with is_breeding := false, breeding_cooldown := 30,
                  breeding_partner := none } :=
  ⟨h.1, h.2.1, h.2.2.1, fun hb => absurd hb (by simp)⟩

theorem rInv_farm_eat_done {c : Character} (h : RInv c) :
    RInv { c with food_level := min 100 (c.food_level + 30), is_eating := false,
                  target_facility := none } := by
  refine ⟨⟨?_, ?_, h.1.2.2.1, h.1.2.2.2.1, h.1.2.2.2.2.1, h.1.2.2.2.2.2⟩,
    fun hb => absurd hb (by simp), h.2.2.1,
    fun hb => ⟨rfl, (h.2.2.2 hb).2.1, (h.2.2.2 hb).2.2⟩⟩
  · show (0 : ℚ) ≤ min 100 (c.food_level + 30)
    have := h.1.1
    exact le_min (by norm_num) (by linarith)
  · show min (100 : ℚ) (c.food_level + 30) ≤ 100
    exact min_le_left 100 _

theorem remove_block_characters (w : World) (x y : ℚ) :
    (w.remove_block x y).2.characters = w.characters := by
  simp only [World.remove_block]
  split_ifs <;> rfl

theorem farmEatStep_shape (w : World) (g : Rng) (k : ℕ) (c : Character) (t : TargetRef) :
    ∃ c2, (farmEatStep w g k c t).1.characters = w.characters.set k c2 ∧
      (farmEatStep w g k c t).2 = g ∧ (RInv c → RInv c2) ∧
      c2.is_breeding = c.is_breeding := by
  have h016 : (0 : ℚ) ≤ 0.016 := by norm_num
  simp only [farmEatStep]
  split_ifs with hdone
  · refine ⟨_, ?_, rfl, fun hr => rInv_farm_eat_done (rInv_update_needs h016 hr), ?_⟩
    · show ({ w with placed_blocks := _ } : World).remove_block t.tx t.ty
        |>.2.characters.set k _ = _
      rw [remove_block_characters]
    · show (c.update_needs 0.016).is_breeding = c.is_breeding
      exact (update_needs_fixed_fields c 0.016).2.2.2.2.2.2.2.1
  · exact ⟨_, rfl, rfl, fun hr => rInv_update_needs h016 hr,
      (update_needs_fixed_fields c 0.016).2.2.2.2.2.2.2.1⟩

theorem generalStep_shape (prim : Prim) (wx wy : ℚ) (w : World) (g : Rng) (k : ℕ)
    (c : Character) (hb : c.is_breeding = false) :
    ∃ c2 g2, generalStep prim wx wy w g k c = (w.writeChar k c2, g2) ∧
      (RInv c → RInv c2) ∧
      (0.016 < c.breeding_cooldown → c2.is_breeding = false) := by
  have h016 : (0 : ℚ) ≤ 0.016 := by norm_num
  have hb1 : (c.update_needs 0.016).is_breeding = false :=
    ((update_needs_fixed_fields c 0.016).2.2.2.2.2.2.2.1).trans hb
  simp only [generalStep]
  split_ifs with h1 h2 h3 h4
  · exact ⟨_, _, rfl, fun hr => rInv_update_needs h016 hr, fun _ => hb1⟩
  · exact ⟨_, _, rfl, fun hr => rInv_update_needs h016 hr, fun _ => hb1⟩
  · exact ⟨_, _, rfl, fun hr => rInv_update_needs h016 hr, fun _ => hb1⟩
  · rw [hb1] at h4
    exact absurd h4 (by simp)
  · obtain ⟨c2, g2, heq, hd, hstream⟩ := gatePhase_shape prim wx wy w g k (c.update_needs 0.016)
    refine ⟨c2, g2, heq, ?_, ?_⟩
    · intro hr
      rcases hd with hok | ⟨hcd, hrw⟩
      · exact rInv_of_stageOK hb1 hok (rInv_update_needs h016 hr)
      · rw [hrw]
        exact rInv_start_breeding (rInv_update_needs h016 hr)
    · intro hcd
      rcases hd with hok | ⟨hcd1, hrw⟩
      · exact hok.2.2.2.2.2.2.2.2.1 hb1
      · rw [update_needs_cooldown] at hcd1
        split_ifs at hcd1 <;> linarith

theorem rInv_ite {P : Prop} [Decidable P] {a b : Character} (ha : RInv a) (hb : RInv b) :
    RInv (if P then a else b) := by
  split_ifs <;> assumption

theorem allRInv_map {l : List Character} {f : Character → Character}
    (hall : ∀ c0 ∈ l, RInv c0) (hf : ∀ c0, RInv c0 → RInv (f c0)) :
    ∀ c0 ∈ l.map f, RInv c0 := by
  intro c0 h0
  obtain ⟨c1, hm, he⟩ := List.mem_map.mp h0
  exact he ▸ hf c1 (hall c1 hm)

theorem breedPair_allRInv (w : World) (k : ℕ) (c1 : Character)
    (hall : ∀ c0 ∈ w.characters, RInv c0) (hc1 : RInv c1) :
    RInv (breedPair w k c1).1 ∧ ∀ c0 ∈ (breedPair w k c1).2.characters, RInv c0 := by
  simp only [breedPair]
  split_ifs with hp
  · cases hfp : findPartner (w.writeChar k c1).characters c1 with
    | some p =>
      dsimp only
      split_ifs with hbp
      · exact ⟨rInv_update_partner _ hc1,
          allRInv_updateById (allRInv_set (allRInv_set hall hc1) (rInv_update_partner _ hc1))
            (fun c0 h0 => rInv_update_partner _ h0)⟩
      · exact ⟨rInv_update_partner _ hc1,
          allRInv_set (allRInv_set hall hc1) (rInv_update_partner _ hc1)⟩
    | none => exact ⟨hc1, allRInv_set hall hc1⟩
  · exact ⟨hc1, allRInv_set hall hc1⟩

theorem breedResolve_allRInv (prim : Prim) (g : Rng) (k : ℕ) (pw : Character × World)
    (hc : RInv pw.1) (hall : ∀ c0 ∈ pw.2.characters, RInv c0) (hg : ValidRng g) :
    (∀ c0 ∈ (breedResolve prim g k pw).1.characters, RInv c0) ∧
    ValidRng (breedResolve prim g k pw).2 := by
  simp only [breedResolve]
  cases hbp : pw.1.breeding_partner with
  | none => exact ⟨hall, hg⟩
  | some pid =>
    dsimp only
    cases hfind : pw.2.characters.find? (fun q => decide (q.cid = pid)) with
    | none =>
      dsimp only
      exact ⟨allRInv_set hall (rInv_update_partner none hc), hg⟩
    | some p =>
      dsimp only
      split_ifs with hnb hdist
      · exact ⟨allRInv_set hall (rInv_update_partner none hc), hg⟩
      · refine ⟨?_, validRng_of_stream_eq rfl hg⟩
        intro c0 h0
        rcases List.mem_append.mp h0 with h0 | h0
        · exact allRInv_updateById (allRInv_set hall (rInv_breed_complete hc))
            (fun q hq => rInv_breed_partner_clear hq) c0 h0
        · have he := List.mem_singleton.mp h0
          subst he
          exact rInv_spawn _ _ _ g hg
      · exact ⟨allRInv_set hall (rInv_move_towards prim pw.2 p.x p.y hc), hg⟩

theorem breedingStep_allRInv (prim : Prim) (w : World) (g : Rng) (k : ℕ) (c1 : Character)
    (hall : ∀ c0 ∈ w.characters, RInv c0) (hc1 : RInv c1) (hg : ValidRng g) :
    (∀ c0 ∈ (breedingStep prim w g k c1).1.characters, RInv c0) ∧
    ValidRng (breedingStep prim w g k c1).2 := by
  have h := breedPair_allRInv w k c1 hall hc1
  exact breedResolve_allRInv prim g k (breedPair w k c1) h.1 h.2 hg

theorem generalStep_allRInv (prim : Prim) (wx wy : ℚ) (w : World) (g : Rng) (k : ℕ)
    (c : Character) (hall : ∀ c0 ∈ w.characters, RInv c0) (hc : RInv c) (hg : ValidRng g) :
    (∀ c0 ∈ (generalStep prim wx wy w g k c).1.characters, RInv c0) ∧
    ValidRng (generalStep prim wx wy w g k c).2 := by
  have h016 : (0 : ℚ) ≤ 0.016 := by norm_num
  have hc1 := rInv_update_needs h016 hc
  simp only [generalStep]
  split_ifs with h1 h2 h3 h4
  · exact ⟨allRInv_set hall hc1, hg⟩
  · exact ⟨allRInv_set hall hc1, hg⟩
  · exact ⟨allRInv_set hall hc1, hg⟩
  · exact breedingStep_allRInv prim w g k _ hall hc1 hg
  · simp only [Bool.not_eq_true] at h4
    obtain ⟨c2, g2, heq, hd, hstream⟩ := gatePhase_shape prim wx wy w g k (c.update_needs 0.016)
    rw [heq]
    refine ⟨?_, validRng_of_stream_eq hstream hg⟩
    rcases hd with hok | ⟨_, hrw⟩
    · exact allRInv_set hall (rInv_of_stageOK h4 hok hc1)
    · rw [hrw]
      exact allRInv_set hall (rInv_start_breeding hc1)

theorem charStep_allRInv (prim : Prim) (wx wy : ℚ) (st : World × Rng) (k : ℕ)
    (hall : ∀ c0 ∈ st.1.characters, RInv c0) (hg : ValidRng st.2) :
    (∀ c0 ∈ (charStep prim wx wy st k).1.characters, RInv c0) ∧
    ValidRng (charStep prim wx wy st k).2 := by
  simp only [charStep]
  cases hk : st.1.characters[k]? with
  | none => exact ⟨hall, hg⟩
  | some c =>
    dsimp only
    have hc : RInv c := hall c (List.getElem?_mem hk)
    split_ifs with hrab
    · exact ⟨hall, hg⟩
    · cases ht : c.target_facility with
      | some t =>
        dsimp only
        split_ifs with hef
        · obtain ⟨c2, hchars, hg2, hri, _⟩ := farmEatStep_shape st.1 st.2 k c t
          refine ⟨?_, ?_⟩
          · intro c0 h0
            rw [hchars] at h0
            exact allRInv_set hall (hri hc) c0 h0
          · rw [hg2]
            exact hg
        · exact generalStep_allRInv prim wx wy st.1 st.2 k c hall hc hg
      | none => exact generalStep_allRInv prim wx wy st.1 st.2 k c hall hc hg

theorem aiLoop_allRInv (prim : Prim) (wx wy : ℚ) (fuel : ℕ) : ∀ (k : ℕ) (st : World × Rng),
    (∀ c0 ∈ st.1.characters, RInv c0) → ValidRng st.2 →
    (∀ c0 ∈ (aiLoop prim wx wy fuel k st).1.characters, RInv c0) ∧
    ValidRng (aiLoop prim wx wy fuel k st).2 := by
  induction fuel with
  | zero =>
    intro k st hall hg
    exact ⟨hall, hg⟩
  | succ fuel ih =>
    intro k st hall hg
    simp only [aiLoop]
    split_ifs with hk
    · have h := charStep_allRInv prim wx wy st k hall hg
      exact ih (k + 1) _ h.1 h.2
    · exact ⟨hall, hg⟩

theorem wardenMove_allRInv (w : World) (keys : Keys)
    (hall : ∀ c0 ∈ w.characters, RInv c0) :
    ∀ c0 ∈ (wardenMove w keys).characters, RInv c0 := by
  simp only [wardenMove]
  cases hw : w.get_warden with
  | none => exact hall
  | some wd =>
    dsimp only
    have hwd : RInv wd := hall wd (List.mem_of_find?_eq_some hw)
    refine allRInv_updateById (allRInv_updateById hall (fun c0 _ => ?_)) (fun c0 _ => ?_)
    · exact rInv_ite (rInv_char_move _ _ hwd) hwd
    · exact rInv_ite
        (rInv_char_move _ _ (rInv_ite (rInv_char_move _ _ hwd) hwd))
        (rInv_ite (rInv_char_move _ _ hwd) hwd)

theorem itemPickup_allRInv (w : World) (hall : ∀ c0 ∈ w.characters, RInv c0) :
    ∀ c0 ∈ (itemPickup w).characters, RInv c0 := by
  simp only [itemPickup]
  cases hw : w.get_warden with
  | none => exact hall
  | some wd =>
    dsimp only
    cases hit : w.items.find? (fun it =>
        decide (it.held_by = none) && decide (distSq wd.x wd.y it.x it.y < 900)) with
    | none => exact hall
    | some it =>
      dsimp only
      exact allRInv_updateById hall (fun c0 h0 => rInv_update_held _ h0)

theorem tick_allRInv (prim : Prim) (keys : Keys) (w : World) (g : Rng)
    (hall : ∀ c0 ∈ w.characters, RInv c0) (hg : ValidRng g) :
    (∀ c0 ∈ (tick prim keys w g).1.characters, RInv c0) ∧
    ValidRng (tick prim keys w g).2 := by
  simp only [tick]
  cases hw : w.get_warden with
  | none => exact ⟨hall, hg⟩
  | some wd =>
    dsimp only
    have h3 : ∀ c0 ∈ (((wardenMove w keys).update_bullets prim).update_farms 0.016).characters,
        RInv c0 := wardenMove_allRInv w keys hall
    exact ⟨itemPickup_allRInv _ (aiLoop_allRInv prim _ _ _ _ _ h3 hg).1,
      (aiLoop_allRInv prim _ _ _ _ _ h3 hg).2⟩

theorem place_block_characters (w : World) (x y : ℚ) (bt : BlockType) :
    (w.place_block x y bt).2.characters = w.characters ∨
    ∃ idn, (w.place_block x y bt).2.characters =
      (w.updateCharById idn (fun c => { c with carrots := c.carrots - 1 })).characters := by
  simp only [World.place_block]
  by_cases hbt : bt = BlockType.farm
  · rw [if_pos hbt]
    cases hw : w.get_warden with
    | none => exact Or.inl rfl
    | some wd =>
      dsimp only
      split_ifs with hc
      · exact Or.inl rfl
      · refine Or.inr ⟨wd.cid, ?_⟩
        dsimp only
        split_ifs <;> rfl
  · rw [if_neg hbt]
    dsimp only
    split_ifs <;> exact Or.inl rfl

theorem place_block_allRInv (w : World) (x y : ℚ) (bt : BlockType)
    (hall : ∀ c0 ∈ w.characters, RInv c0) :
    ∀ c0 ∈ (w.place_block x y bt).2.characters, RInv c0 := by
  rcases place_block_characters w x y bt with h | ⟨idn, h⟩
  · rw [h]
    exact hall
  · rw [h]
    exact allRInv_updateById hall (fun c0 h0 => rInv_update_carrots _ h0)

theorem remove_block_allRInv (w : World) (x y : ℚ)
    (hall : ∀ c0 ∈ w.characters, RInv c0) :
    ∀ c0 ∈ (w.remove_block x y).2.characters, RInv c0 := by
  rw [remove_block_characters]
  exact hall

theorem toggle_door_allRInv (w : World) (prim : Prim) (x y : ℚ)
    (hall : ∀ c0 ∈ w.characters, RInv c0) :
    ∀ c0 ∈ (w.toggle_door prim x y).2.characters, RInv c0 := by
  simp only [World.toggle_door]
  cases hfind : w.placed_blocks.find? (fun b =>
      decide (b.block_type = BlockType.door) && decide (b.x = gridSnap x) &&
      decide (b.y = gridSnap y)) with
  | none => exact hall
  | some blk =>
    dsimp only
    split_ifs with hclose
    · refine allRInv_map hall (fun c0 h0 => ?_)
      exact rInv_ite (rInv_update_pos _ _ h0) h0
    · exact hall

theorem rInv_mkWarden (idn : ℕ) (x y : ℚ) : RInv (mkWarden idn x y) := by
  refine ⟨⟨?_, ?_, ?_, ?_, ?_, ?_⟩, fun h => absurd h (by simp [mkWarden]),
    fun h => absurd h (by simp [mkWarden]), fun h => absurd h (by simp [mkWarden])⟩ <;>
    norm_num [mkWarden]

theorem buildRabbits_allRInv : ∀ (ps : List (ℚ × ℚ)) (acc : List Character × Rng × ℕ),
    (∀ c0 ∈ acc.1, RInv c0) → ValidRng acc.2.1 →
    ∀ c0 ∈ (ps.foldl buildRabbit acc).1, RInv c0 := by
  intro ps
  induction ps with
  | nil =>
    intro acc hall hg
    exact hall
  | cons p ps ih =>
    intro acc hall hg
    simp only [List.foldl_cons]
    refine ih (buildRabbit acc p) ?_ ?_
    · intro c0 h0
      rcases List.mem_append.mp h0 with h0 | h0
      · exact hall c0 h0
      · have he := List.mem_singleton.mp h0
        subst he
        have h0' := hg acc.2.1.idx
        have h1' := hg (acc.2.1.idx + 1)
        have h2' := hg (acc.2.1.idx + 1 + 1)
        refine ⟨⟨?_, ?_, ?_, ?_, ?_, ?_⟩, fun h => absurd h (by simp [buildRabbit, mkRabbit,
          Rng.uniform, Rng.next]), fun h => absurd h (by simp [buildRabbit, mkRabbit,
          Rng.uniform, Rng.next]), fun h => absurd h (by simp [buildRabbit, mkRabbit,
          Rng.uniform, Rng.next])⟩
        · show (0 : ℚ) ≤ 50 + (100 - 50) * acc.2.1.stream acc.2.1.idx
          nlinarith [h0'.1, h0'.2]
        · show (50 : ℚ) + (100 - 50) * acc.2.1.stream acc.2.1.idx ≤ 100
          nlinarith [h0'.1, h0'.2]
        · show (0 : ℚ) ≤ 50 + (100 - 50) * acc.2.1.stream (acc.2.1.idx + 1)
          nlinarith [h1'.1, h1'.2]
        · show (50 : ℚ) + (100 - 50) * acc.2.1.stream (acc.2.1.idx + 1) ≤ 100
          nlinarith [h1'.1, h1'.2]
        · show (0 : ℚ) ≤ 50 + (100 - 50) * acc.2.1.stream (acc.2.1.idx + 1 + 1)
          nlinarith [h2'.1, h2'.2]
        · show (50 : ℚ) + (100 - 50) * acc.2.1.stream (acc.2.1.idx + 1 + 1) ≤ 100
          nlinarith [h2'.1, h2'.2]
    · intro n
      exact hg n

theorem initialWorld_allRInv (g : Rng) (hg : ValidRng g) :
    ∀ c0 ∈ (initialWorld g).characters, RInv c0 := by
  intro c0 h0
  simp only [initialWorld] at h0
  rcases List.mem_cons.mp h0 with h0 | h0
  · exact h0 ▸ rInv_mkWarden 0 1000 500
  · exact buildRabbits_allRInv initialRabbitPositions ([], g, 1)
      (fun c hc => absurd hc (List.not_mem_nil c)) hg c0 h0

theorem reachable_allRInv {w : World} (h : Reachable w) : ∀ c0 ∈ w.characters, RInv c0 := by
  induction h with
  | init g hg => exact initialWorld_allRInv g hg
  | step_tick w prim keys g hg hr ih => exact (tick_allRInv prim keys w g ih hg).1
  | step_place w x y bt hr ih => exact place_block_allRInv w x y bt ih
  | step_remove w x y hr ih => exact remove_block_allRInv w x y ih
  | step_toggle w prim x y hr ih => exact toggle_door_allRInv w prim x y ih

/-- C4: in every world reachable from the initial world by ticks and the
player operations, every character (in particular every rabbit) has food,
water and sleep levels within [0, 100]: update_needs clamps decay at 0 and
restoration at 100, the farm-eat completion caps the +30 food bonus at 100,
and every rabbit created initially or by breeding starts with uniform(50,100)
needs. -/
theorem C4_needs_bounds (w : World) (c : Character) (hw : Reachable w)
    (hc : c ∈ w.characters) :
    0 ≤ c.food_level ∧ c.food_level ≤ 100 ∧ 0 ≤ c.water_level ∧ c.water_level ≤ 100 ∧
    0 ≤ c.sleep_level ∧ c.sleep_level ≤ 100 :=
  (reachable_allRInv hw c hc).1

theorem C4_needs_bounds_witness :
    0 ≤ (mkWarden 0 1000 500).food_level ∧ (mkWarden 0 1000 500).food_level ≤ 100 ∧
    0 ≤ (mkWarden 0 1000 500).water_level ∧ (mkWarden 0 1000 500).water_level ≤ 100 ∧
    0 ≤ (mkWarden 0 1000 500).sleep_level ∧ (mkWarden 0 1000 500).sleep_level ≤ 100 :=
  C4_needs_bounds W0 (mkWarden 0 1000 500)
    (Reachable.init ⟨fun _ => 1/2, 0⟩ (fun _ => ⟨by norm_num, by norm_num⟩))
    (List.mem_cons_self _ _)

/-- C5: in every world reachable from the initial world by ticks and the
player operations, each character's action flags satisfy the exclusion
invariant: is_eating, is_drinking and is_sleeping are pairwise exclusive, and
is_breeding is never true simultaneously with any of the three. -/
theorem C5_flag_exclusion (w : World) (c : Character) (hw : Reachable w)
    (hc : c ∈ w.characters) :
    (c.is_eating = true → c.is_drinking = false ∧ c.is_sleeping = false) ∧
    (c.is_drinking = true → c.is_sleeping = false) ∧
    (c.is_breeding = true → c.is_eating = false ∧ c.is_drinking = false ∧
      c.is_sleeping = false) :=
  (reachable_allRInv hw c hc).2

theorem C5_flag_exclusion_witness :
    ((mkWarden 0 1000 500).is_eating = true →
      (mkWarden 0 1000 500).is_drinking = false ∧ (mkWarden 0 1000 500).is_sleeping = false) ∧
    ((mkWarden 0 1000 500).is_drinking = true → (mkWarden 0 1000 500).is_sleeping = false) ∧
    ((mkWarden 0 1000 500).is_breeding = true →
      (mkWarden 0 1000 500).is_eating = false ∧ (mkWarden 0 1000 500).is_drinking = false ∧
      (mkWarden 0 1000 500).is_sleeping = false) :=
  C5_flag_exclusion W0 (mkWarden 0 1000 500)
    (Reachable.init ⟨fun _ => 1/2, 0⟩ (fun _ => ⟨by norm_num, by norm_num⟩))
    (List.mem_cons_self _ _)

theorem nearestAux_pred (p : Block → Bool) (x y maxd : ℚ) :
    ∀ (l : List Block) (best : Option Block),
      (∀ b0, best = some b0 → p b0 = true) →
      ∀ b, nearestAux p x y maxd l best = some b → p b = true := by
  intro l
  induction l with
  | nil =>
    intro best hbest b hb
    exact hbest b hb
  | cons a l ih =>
    intro best hbest b hb
    simp only [nearestAux] at hb
    split_ifs at hb with hcond
    · refine ih (some a) ?_ b hb
      intro b0 h0
      cases h0
      simp only [Bool.and_eq_true] at hcond
      exact hcond.1
    · exact ih best hbest b hb

theorem find_nearest_water_block_type {w : World} {x y maxd : ℚ} {b : Block}
    (h : w.find_nearest_water_block x y maxd = some b) :
    b.block_type = BlockType.water := by
  simp only [World.find_nearest_water_block] at h
  have := nearestAux_pred (fun b => decide (b.block_type = BlockType.water)) x y maxd
    w.placed_blocks none (fun b0 h0 => by cases h0) b h
  exact of_decide_eq_true this

theorem find_nearest_harvestable_farm_type {w : World} {x y maxd : ℚ} {b : Block}
    (h : w.find_nearest_harvestable_farm x y maxd = some b) :
    b.block_type = BlockType.farm := by
  simp only [World.find_nearest_harvestable_farm] at h
  have := nearestAux_pred
    (fun b => decide (b.block_type = BlockType.farm) && b.is_harvestable) x y maxd
    w.placed_blocks none (fun b0 h0 => by cases h0) b h
  simp only [Bool.and_eq_true] at this
  exact of_decide_eq_true this.1

theorem waterStage_facts (w : World) (st : Character × Option (ℚ × ℚ) × Bool) :
    ((waterStage w st).1.is_eating = true → st.1.is_eating = true ∧
      (waterStage w st).1.target_facility = st.1.target_facility) ∧
    ((waterStage w st).1.is_drinking = true →
      st.1.is_drinking = true ∨ st.1.water_level < 30) ∧
    ((waterStage w st).1.is_sleeping = true → st.1.is_sleeping = true) ∧
    (waterStage w st).1.sleep_level = st.1.sleep_level ∧
    (targetIsFood st.1.target_facility = false →
      targetIsFood (waterStage w st).1.target_facility = false) := by
  simp only [waterStage]
  split_ifs with hw1
  · cases hfind : w.find_nearest_water_block st.1.x st.1.y 500 with
    | some wb =>
      dsimp only
      split_ifs with hat
      · refine ⟨fun h => absurd h (by simp [Character.start_drinking]),
          fun _ => Or.inr hw1,
          fun h => absurd h (by simp [Character.start_drinking]), rfl, fun _ => ?_⟩
        have hwt := find_nearest_water_block_type hfind
        simp [targetIsFood, hwt]
      · exact ⟨fun h => ⟨h, rfl⟩, fun h => Or.inl h, fun h => h, rfl, fun h => h⟩
    | none => exact ⟨fun h => ⟨h, rfl⟩, fun h => Or.inl h, fun h => h, rfl, fun h => h⟩
  · exact ⟨fun h => ⟨h, rfl⟩, fun h => Or.inl h, fun h => h, rfl, fun h => h⟩

theorem sleepStage_facts (w : World) (wx wy : ℚ) (st : Character × Option (ℚ × ℚ) × Bool) :
    (sleepStage w wx wy st).1.target_facility = st.1.target_facility ∧
    ((sleepStage w wx wy st).1.is_eating = true → st.1.is_eating = true) ∧
    ((sleepStage w wx wy st).1.is_drinking = true → st.1.is_drinking = true) ∧
    ((sleepStage w wx wy st).1.is_sleeping = true →
      st.1.is_sleeping = true ∨ st.1.sleep_level < 20) := by
  simp only [sleepStage]
  split_ifs with h1 h2
  · exact ⟨rfl, fun h => absurd h (by simp [Character.start_sleeping]),
      fun h => absurd h (by simp [Character.start_sleeping]), fun _ => Or.inr h1.1⟩
  · exact ⟨rfl, fun h => h, fun h => h, fun h => Or.inl h⟩
  · exact ⟨rfl, fun h => h, fun h => h, fun h => Or.inl h⟩

theorem move_towards_ftf (c : Character) (prim : Prim) (w : World) (tx ty : ℚ) :
    (c.move_towards prim w tx ty).target_facility = c.target_facility ∧
    (c.move_towards prim w tx ty).is_eating = c.is_eating ∧
    (c.move_towards prim w tx ty).is_drinking = c.is_drinking ∧
    (c.move_towards prim w tx ty).is_sleeping = c.is_sleeping := by
  obtain ⟨f1, f2, f3, f4, f5, f6, f7, f8, f9, f10, f11, f12, f13, f14, f15, f16, f17, f18,
    f19, f20, f21, f22⟩ := move_towards_fixed_fields c prim w tx ty
  exact ⟨f16, f11, f12, f13⟩

theorem wanderOrMoveStage_out (prim : Prim) (w : World) (g : Rng) (k : ℕ)
    (st : Character × Option (ℚ × ℚ) × Bool) :
    ∃ c2 g2, wanderOrMoveStage prim w g k st = (w.writeChar k c2, g2) ∧
      c2.target_facility = st.1.target_facility ∧
      c2.is_eating = st.1.is_eating ∧ c2.is_drinking = st.1.is_drinking ∧
      c2.is_sleeping = st.1.is_sleeping := by
  simp only [wanderOrMoveStage]
  by_cases hcond : (st.2.2 = false ∧ 20 ≤ st.1.sleep_level)
  · rw [if_pos hcond]
    by_cases hwait : st.1.is_waiting = true
    · rw [if_pos hwait]
      by_cases htimer :
          ({ st.1 with wait_timer := st.1.wait_timer - 0.016 } : Character).wait_timer ≤ 0
      · rw [if_pos htimer]
        exact ⟨_, _, rfl, rfl, rfl, rfl, rfl⟩
      · rw [if_neg htimer]
        exact ⟨_, _, rfl, rfl, rfl, rfl, rfl⟩
    · rw [if_neg hwait]
      cases hrx : st.1.random_target_x with
      | some rx0 =>
        cases hry : st.1.random_target_y with
        | some ry0 =>
          simp only [hrx, hry]
          split_ifs with harr
          · exact ⟨_, _, rfl, rfl, rfl, rfl, rfl⟩
          · refine ⟨_, _, rfl, ?_, ?_, ?_, ?_⟩
            · exact (move_towards_ftf _ prim w _ _).1
            · exact (move_towards_ftf _ prim w _ _).2.1
            · exact (move_towards_ftf _ prim w _ _).2.2.1
            · exact (move_towards_ftf _ prim w _ _).2.2.2
        | none =>
          simp only [hrx, hry]
          split_ifs with harr
          · exact ⟨_, _, rfl, rfl, rfl, rfl, rfl⟩
          · refine ⟨_, _, rfl, ?_, ?_, ?_, ?_⟩
            · exact (move_towards_ftf _ prim w _ _).1
            · exact (move_towards_ftf _ prim w _ _).2.1
            · exact (move_towards_ftf _ prim w _ _).2.2.1
            · exact (move_towards_ftf _ prim w _ _).2.2.2
      | none =>
        simp only [hrx]
        split_ifs with harr
        · exact ⟨_, _, rfl, rfl, rfl, rfl, rfl⟩
        · refine ⟨_, _, rfl, ?_, ?_, ?_, ?_⟩
          · exact (move_towards_ftf _ prim w _ _).1
          · exact (move_towards_ftf _ prim w _ _).2.1
          · exact (move_towards_ftf _ prim w _ _).2.2.1
          · exact (move_towards_ftf _ prim w _ _).2.2.2
  · rw [if_neg hcond]
    cases st.2.1 with
    | some tgt =>
      dsimp only
      refine ⟨_, _, rfl, ?_, ?_, ?_, ?_⟩
      · exact (move_towards_ftf _ prim w _ _).1
      · exact (move_towards_ftf _ prim w _ _).2.1
      · exact (move_towards_ftf _ prim w _ _).2.2.1
      · exact (move_towards_ftf _ prim w _ _).2.2.2
    | none =>
      exact ⟨_, _, rfl, rfl, rfl, rfl, rfl⟩

set_option maxRecDepth 8000 in
/-- C7 counterexample: the rabbit `c7rabbit` (food 20, water 20) reaches the
facility-seeking phase with the harvestable farm `c7farm` within 500 units
(second conjunct), yet the phase leaves it drinking at the water block at
its unchanged position (520, 520) — it neither starts farm-eating nor moves
toward the farm center, contradicting the claim's "it instead starts
farm-eating or moves toward the farm's center". -/
theorem C7_counterexample_water_override :
    (facilityPhase dummyPrim 1900 1900 c7world ⟨fun _ => 1/2, 0⟩ 1 c7rabbit).1.characters.map
      (fun c => (c.cid, c.is_drinking, c.is_eating, c.x, c.y)) =
      [(0, false, false, 1900, 1900), (1, true, false, 520, 520)] ∧
    c7world.find_nearest_harvestable_farm c7rabbit.x c7rabbit.y 500 = some c7farm := by
  refine ⟨?_, ?_⟩ <;> with_unfolding_all decide

/-- C7 amended: when a harvestable farm is found within 500 units of a
rabbit entering the facility-seeking phase (flags clear, current target not
a food block), the generic food-seek never runs: the resulting rabbit never
holds a Food-block target, and it is eating only if it started farm-eating
within 30 units of the farm center.  However, the farm action can still be
overridden: the rabbit ends up drinking only if its water level was below
30, and sleeping only if its sleep level was below 20. -/
theorem C7_amended_farm_preemption (prim : Prim) (wx wy : ℚ) (w : World) (g : Rng) (k : ℕ)
    (c1 : Character) (farm : Block)
    (he : c1.is_eating = false) (hd : c1.is_drinking = false) (hs : c1.is_sleeping = false)
    (htgt : targetIsFood c1.target_facility = false)
    (hfarm : w.find_nearest_harvestable_farm c1.x c1.y 500 = some farm) :
    ∃ c2 g2, facilityPhase prim wx wy w g k c1 = (w.writeChar k c2, g2) ∧
      targetIsFood c2.target_facility = false ∧
      (c2.is_eating = true → targetIsFarm c2.target_facility = true ∧
        distSq c1.x c1.y (farm.x + farm.size / 2) (farm.y + farm.size / 2) < 900) ∧
      (c2.is_drinking = true → c1.water_level < 30) ∧
      (c2.is_sleeping = true → c1.sleep_level < 20) := by
  have hft := find_nearest_harvestable_farm_type hfarm
  have hA : (farmFoodStage w c1).1.is_drinking = false ∧
      (farmFoodStage w c1).1.is_sleeping = false ∧
      (farmFoodStage w c1).1.water_level = c1.water_level ∧
      (farmFoodStage w c1).1.sleep_level = c1.sleep_level ∧
      targetIsFood (farmFoodStage w c1).1.target_facility = false ∧
      ((farmFoodStage w c1).1.is_eating = true →
        targetIsFarm (farmFoodStage w c1).1.target_facility = true ∧
        distSq c1.x c1.y (farm.x + farm.size / 2) (farm.y + farm.size / 2) < 900) := by
    simp only [farmFoodStage, hfarm]
    split_ifs with hclose
    · refine ⟨rfl, rfl, rfl, rfl, ?_, fun _ => ⟨?_, hclose⟩⟩
      · simp [targetIsFood, hft]
      · simp [targetIsFarm, hft]
    · exact ⟨hd, hs, rfl, rfl, htgt, fun h => absurd h (by simp [he])⟩
  obtain ⟨hAd, hAs, hAw, hAsl, hAtf, hAe⟩ := hA
  obtain ⟨hWe, hWd, hWs, hWsl, hWtf⟩ := waterStage_facts w (farmFoodStage w c1)
  obtain ⟨hSt, hSe, hSd, hSs⟩ := sleepStage_facts w wx wy (waterStage w (farmFoodStage w c1))
  obtain ⟨c2, g2, heq, ht2, he2, hd2, hs2⟩ :=
    wanderOrMoveStage_out prim w g k (sleepStage w wx wy (waterStage w (farmFoodStage w c1)))
  refine ⟨c2, g2, heq, ?_, ?_, ?_, ?_⟩
  · rw [ht2, hSt]
    exact hWtf hAtf
  · intro h
    rw [he2] at h
    have h4 := hWe (hSe h)
    have h5 := hAe h4.1
    refine ⟨?_, h5.2⟩
    rw [ht2, hSt, h4.2]
    exact h5.1
  · intro h
    rw [hd2] at h
    rcases hWd (hSd h) with h4 | h4
    · exact absurd h4 (by simp [hAd])
    · exact hAw ▸ h4
  · intro h
    rw [hs2] at h
    rcases hSs h with h4 | h4
    · exact absurd (hWs h4) (by simp [hAs])
    · exact hAsl ▸ (hWsl ▸ h4)

set_option maxRecDepth 8000 in
theorem C7_amended_farm_preemption_witness :
    ∃ c2 g2, facilityPhase dummyPrim 1900 1900 c7world ⟨fun _ => 1/2, 0⟩ 1 c7rabbit =
        (c7world.writeChar 1 c2, g2) ∧
      targetIsFood c2.target_facility = false ∧
      (c2.is_eating = true → targetIsFarm c2.target_facility = true ∧
        distSq c7rabbit.x c7rabbit.y (c7farm.x + c7farm.size / 2)
          (c7farm.y + c7farm.size / 2) < 900) ∧
      (c2.is_drinking = true → c7rabbit.water_level < 30) ∧
      (c2.is_sleeping = true → c7rabbit.sleep_level < 20) :=
  C7_amended_farm_preemption dummyPrim 1900 1900 c7world ⟨fun _ => 1/2, 0⟩ 1 c7rabbit c7farm
    (by with_unfolding_all decide) (by with_unfolding_all decide)
    (by with_unfolding_all decide) (by with_unfolding_all decide)
    (by with_unfolding_all decide)

theorem find?_first {α : Type} (p : α → Bool) : ∀ (l : List α) (j : ℕ) (b : α),
    l[j]? = some b → p b = true →
    (∀ m, m < j → ∀ a, l[m]? = some a → p a = false) →
    l.find? p = some b := by
  intro l
  induction l with
  | nil =>
    intro j b hj
    simp at hj
  | cons x xs ih =>
    intro j b hj hb hlt
    cases j with
    | zero =>
      rw [List.getElem?_cons_zero] at hj
      have hx : x = b := Option.some.inj hj
      subst hx
      exact List.find?_cons_of_pos xs hb
    | succ j =>
      have hx : p x = false :=
        hlt 0 (Nat.succ_pos j) x (by rw [List.getElem?_cons_zero])
      rw [List.find?_cons]
      simp only [hx, cond_false]
      rw [List.getElem?_cons_succ] at hj
      exact ih j b hj hb (fun m hm a ha =>
        hlt (m + 1) (Nat.succ_lt_succ hm) a (by rw [List.getElem?_cons_succ]; exact ha))

theorem charStep_nonbreeding (prim : Prim) (wx wy : ℚ) (st : World × Rng) (k : ℕ)
    (hnb : ∀ c, st.1.characters[k]? = some c → c.is_breeding = false) :
    (charStep prim wx wy st k).1.characters = st.1.characters ∨
    ∃ c2, (charStep prim wx wy st k).1.characters = st.1.characters.set k c2 ∧
      (∀ c, st.1.characters[k]? = some c → 0.016 < c.breeding_cooldown →
        c2.is_breeding = false) := by
  simp only [charStep]
  cases hk : st.1.characters[k]? with
  | none => exact Or.inl rfl
  | some c =>
    dsimp only
    have hcb := hnb c hk
    split_ifs with hrab
    · exact Or.inl rfl
    · cases ht : c.target_facility with
      | some t =>
        dsimp only
        split_ifs with hef
        · obtain ⟨c2, hchars, _, _, hbr⟩ := farmEatStep_shape st.1 st.2 k c t
          refine Or.inr ⟨c2, hchars, fun _ _ _ => ?_⟩
          rw [hbr]
          exact hcb
        · obtain ⟨c2, g2, heq, _, hbr⟩ := generalStep_shape prim wx wy st.1 st.2 k c hcb
          refine Or.inr ⟨c2, ?_, fun c' hc' hcd => ?_⟩
          · rw [heq]
            rfl
          · have hcc : c = c' := Option.some.inj hc'
            exact hbr (hcc ▸ hcd)
      | none =>
        dsimp only
        obtain ⟨c2, g2, heq, _, hbr⟩ := generalStep_shape prim wx wy st.1 st.2 k c hcb
        refine Or.inr ⟨c2, ?_, fun c' hc' hcd => ?_⟩
        · rw [heq]
          rfl
        · have hcc : c = c' := Option.some.inj hc'
          exact hbr (hcc ▸ hcd)

theorem aiLoop_track (prim : Prim) (wx wy : ℚ) (fuel : ℕ) : ∀ (k : ℕ) (st : World × Rng),
    (∀ m c, k ≤ m → st.1.characters[m]? = some c → c.is_breeding = false) →
    (aiLoop prim wx wy fuel k st).1.characters.length = st.1.characters.length ∧
    (∀ m, m < k → (aiLoop prim wx wy fuel k st).1.characters[m]? = st.1.characters[m]?) ∧
    (∀ j c, k ≤ j → st.1.characters[j]? = some c → 0.016 < c.breeding_cooldown →
      ∃ c2, (aiLoop prim wx wy fuel k st).1.characters[j]? = some c2 ∧
        c2.is_breeding = false) := by
  induction fuel with
  | zero =>
    intro k st hinv
    exact ⟨rfl, fun m _ => rfl, fun j c hkj hj _ => ⟨c, hj, hinv j c hkj hj⟩⟩
  | succ fuel ih =>
    intro k st hinv
    simp only [aiLoop]
    split_ifs with hk
    · rcases charStep_nonbreeding prim wx wy st k (fun c hc => hinv k c le_rfl hc) with
        hsame | ⟨c2, hset, hc2⟩
      · have hinv' : ∀ m c, k + 1 ≤ m →
            (charStep prim wx wy st k).1.characters[m]? = some c → c.is_breeding = false := by
          intro m c hm hc
          rw [hsame] at hc
          exact hinv m c (le_trans (Nat.le_succ k) hm) hc
        obtain ⟨l1, l2, l3⟩ := ih (k + 1) (charStep prim wx wy st k) hinv'
        refine ⟨l1.trans (by rw [hsame]), ?_, ?_⟩
        · intro m hm
          rw [l2 m (Nat.lt_succ_of_lt hm), hsame]
        · intro j c hkj hj hcd
          by_cases hjk : j = k
          · subst hjk
            refine ⟨c, ?_, hinv j c hkj hj⟩
            rw [l2 j (Nat.lt_succ_self j), hsame]
            exact hj
          · have hkj1 : k + 1 ≤ j := by omega
            have hj' : (charStep prim wx wy st k).1.characters[j]? = some c := by
              rw [hsame]
              exact hj
            exact l3 j c hkj1 hj' hcd
      · have hinv' : ∀ m c, k + 1 ≤ m →
            (charStep prim wx wy st k).1.characters[m]? = some c → c.is_breeding = false := by
          intro m c hm hc
          rw [hset, List.getElem?_set_ne (by omega)] at hc
          exact hinv m c (le_trans (Nat.le_succ k) hm) hc
        obtain ⟨l1, l2, l3⟩ := ih (k + 1) (charStep prim wx wy st k) hinv'
        have hlen : (charStep prim wx wy st k).1.characters.length =
            st.1.characters.length := by
          rw [hset, List.length_set]
        refine ⟨l1.trans hlen, ?_, ?_⟩
        · intro m hm
          rw [l2 m (Nat.lt_succ_of_lt hm), hset, List.getElem?_set_ne (by omega)]
        · intro j c hkj hj hcd
          by_cases hjk : j = k
          · subst hjk
            have hlt : j < st.1.characters.length := (List.getElem?_eq_some.mp hj).1
            refine ⟨c2, ?_, hc2 c hj hcd⟩
            rw [l2 j (Nat.lt_succ_self j), hset, List.getElem?_set_eq hlt]
          · have hkj1 : k + 1 ≤ j := by omega
            have hj' : (charStep prim wx wy st k).1.characters[j]? = some c := by
              rw [hset, List.getElem?_set_ne (by omega)]
              exact hj
            exact l3 j c hkj1 hj' hcd
    · exact ⟨rfl, fun m _ => rfl, fun j c hkj hj _ => ⟨c, hj, hinv j c hkj hj⟩⟩

theorem breedResolve_complete (prim : Prim) (g : Rng) (k : ℕ) (c1 : Character) (w1 : World)
    (pid : ℕ) (B : Character) (hpart : c1.breeding_partner = some pid)
    (hfind : w1.characters.find? (fun q => decide (q.cid = pid)) = some B)
    (hBb : B.is_breeding = true)
    (hdist : distSq c1.x c1.y B.x B.y < 900) :
    breedResolve prim g k (c1, w1) =
      ({ w1 with
          characters :=
            ((w1.characters.set k
                { c1 with is_breeding := false, breeding_cooldown := 30,
                          breeding_partner := none, random_target_x := none,
                          random_target_y := none, is_waiting := false }).map
              (fun q => if q.cid = pid then
                  { q with is_breeding := false, breeding_cooldown := 30,
                           breeding_partner := none } else q)) ++
              [(spawnRabbit w1.next_id ((c1.x + B.x) / 2) ((c1.y + B.y) / 2) g).1],
          next_id := w1.next_id + 1 },
       (spawnRabbit w1.next_id ((c1.x + B.x) / 2) ((c1.y + B.y) / 2) g).2) := by
  simp only [breedResolve]
  rw [hpart]
  dsimp only
  rw [hfind]
  dsimp only
  rw [if_neg (by simp [hBb]), if_pos hdist]
  rfl

/-- C3: if at rabbit A's AI step A is breeding with partner B (a breeding
character later in the list whose id is unique among the earlier entries),
the two are within 30 units, and A and B are the only breeding characters,
then A's step appends exactly one newborn rabbit, positioned at the midpoint
of A and B, with full health and uniform(50,100) needs; both A's and B's
entries get is_breeding false, breeding_cooldown 30 and no partner; and the
rest of the AI loop appends no further character, leaves A's entry
untouched, and leaves B non-breeding, so B's own step later in the same
tick spawns no second rabbit. -/
theorem C3_breeding_completion (prim : Prim) (wx wy : ℚ) (w : World) (g : Rng)
    (fuel i j : ℕ) (A B : Character)
    (hg : ValidRng g) (hij : i < j)
    (hA : w.characters[i]? = some A) (hB : w.characters[j]? = some B)
    (hAr : A.character_type = CharType.rabbit)
    (hAb : A.is_breeding = true) (hAe : A.is_eating = false) (hAd : A.is_drinking = false)
    (hAs : A.is_sleeping = false) (hAt : A.target_facility = none)
    (hAp : A.breeding_partner = some B.cid)
    (hBb : B.is_breeding = true) (hABcid : A.cid ≠ B.cid)
    (hfirst : ∀ m, m < j → ∀ c, w.characters[m]? = some c → c.cid ≠ B.cid)
    (hdist : distSq A.x A.y B.x B.y < 900)
    (honly : ∀ m c, w.characters[m]? = some c → c.is_breeding = true → m = i ∨ m = j) :
    (charStep prim wx wy (w, g) i).1.characters.length = w.characters.length + 1 ∧
    (∃ nb, (charStep prim wx wy (w, g) i).1.characters[w.characters.length]? = some nb ∧
      nb.character_type = CharType.rabbit ∧ nb.x = (A.x + B.x) / 2 ∧
      nb.y = (A.y + B.y) / 2 ∧ nb.health = 100 ∧ nb.is_breeding = false ∧
      50 ≤ nb.food_level ∧ nb.food_level ≤ 100 ∧ 50 ≤ nb.water_level ∧
      nb.water_level ≤ 100 ∧ 50 ≤ nb.sleep_level ∧ nb.sleep_level ≤ 100) ∧
    (∃ A2, (charStep prim wx wy (w, g) i).1.characters[i]? = some A2 ∧
      A2.is_breeding = false ∧ A2.breeding_cooldown = 30 ∧ A2.breeding_partner = none) ∧
    (∃ B2, (charStep prim wx wy (w, g) i).1.characters[j]? = some B2 ∧
      B2.is_breeding = false ∧ B2.breeding_cooldown = 30 ∧ B2.breeding_partner = none) ∧
    (aiLoop prim wx wy fuel (i + 1) (charStep prim wx wy (w, g) i)).1.characters.length =
      w.characters.length + 1 ∧
    (aiLoop prim wx wy fuel (i + 1) (charStep prim wx wy (w, g) i)).1.characters[i]? =
      (charStep prim wx wy (w, g) i).1.characters[i]? ∧
    (∃ B3, (aiLoop prim wx wy fuel (i + 1)
        (charStep prim wx wy (w, g) i)).1.characters[j]? = some B3 ∧
      B3.is_breeding = false) := by
  have hu := update_needs_fixed_fields A 0.016
  have hilen : i < w.characters.length := (List.getElem?_eq_some.mp hA).1
  have hjlen : j < w.characters.length := (List.getElem?_eq_some.mp hB).1
  have h1e : (A.update_needs 0.016).is_eating = false := by
    cases hx : (A.update_needs 0.016).is_eating
    · rfl
    · exact absurd ((update_needs_flag_imp A 0.016).1 hx) (by simp [hAe])
  have h1d : (A.update_needs 0.016).is_drinking = false := by
    cases hx : (A.update_needs 0.016).is_drinking
    · rfl
    · exact absurd ((update_needs_flag_imp A 0.016).2.1 hx) (by simp [hAd])
  have h1s : (A.update_needs 0.016).is_sleeping = false := by
    cases hx : (A.update_needs 0.016).is_sleeping
    · rfl
    · exact absurd ((update_needs_flag_imp A 0.016).2.2 hx) (by simp [hAs])
  have hbr : (A.update_needs 0.016).is_breeding = true := by
    rw [hu.2.2.2.2.2.2.2.1]
    exact hAb
  have hpart : (A.update_needs 0.016).breeding_partner = some B.cid := by
    rw [hu.2.2.2.2.2.2.2.2.1]
    exact hAp
  have hstep : charStep prim wx wy (w, g) i =
      breedResolve prim g i (breedPair w i (A.update_needs 0.016)) := by
    simp only [charStep]
    rw [hA]
    dsimp only
    rw [if_neg (by simp [hAr]), hAt]
    dsimp only
    simp only [generalStep]
    rw [if_neg (by simp [h1e]), if_neg (by simp [h1e, h1d]), if_neg (by simp [h1s]),
      if_pos hbr]
    rfl
  have hpair : breedPair w i (A.update_needs 0.016) =
      (A.update_needs 0.016, w.writeChar i (A.update_needs 0.016)) := by
    simp only [breedPair]
    rw [if_neg (by rw [hpart]; simp)]
  have hfind : (w.writeChar i (A.update_needs 0.016)).characters.find?
      (fun q => decide (q.cid = B.cid)) = some B := by
    show (w.characters.set i (A.update_needs 0.016)).find? _ = some B
    refine find?_first _ _ j B ?_ (by simp) ?_
    · rw [List.getElem?_set_ne (Nat.ne_of_lt hij)]
      exact hB
    · intro m hm a ha
      by_cases hmi : m = i
      · subst hmi
        rw [List.getElem?_set_eq hilen] at ha
        have he2 : (A.update_needs 0.016) = a := Option.some.inj ha
        subst he2
        simp [hu.1, hABcid]
      · rw [List.getElem?_set_ne (fun hh => hmi hh.symm)] at ha
        simp [hfirst m hm a ha]
  have hdist2 : distSq (A.update_needs 0.016).x (A.update_needs 0.016).y B.x B.y < 900 := by
    rw [hu.2.2.1, hu.2.2.2.1]
    exact hdist
  have hres := breedResolve_complete prim g i (A.update_needs 0.016)
    (w.writeChar i (A.update_needs 0.016)) B.cid B hpart hfind hBb hdist2
  rw [hpair, hres] at hstep
  have hpack : ∃ l1 nb,
      (charStep prim wx wy (w, g) i).1.characters = l1 ++ [nb] ∧
      l1.length = w.characters.length ∧
      (∃ A2, l1[i]? = some A2 ∧ A2.is_breeding = false ∧ A2.breeding_cooldown = 30 ∧
        A2.breeding_partner = none) ∧
      (∃ B2, l1[j]? = some B2 ∧ B2.is_breeding = false ∧ B2.breeding_cooldown = 30 ∧
        B2.breeding_partner = none) ∧
      (∀ (m : ℕ) (c' : Character), l1[m]? = some c' → c'.is_breeding = false) ∧
      nb.is_breeding = false ∧ nb.character_type = CharType.rabbit ∧
      nb.x = (A.x + B.x) / 2 ∧ nb.y = (A.y + B.y) / 2 ∧ nb.health = 100 ∧
      50 ≤ nb.food_level ∧ nb.food_level ≤ 100 ∧ 50 ≤ nb.water_level ∧
      nb.water_level ≤ 100 ∧ 50 ≤ nb.sleep_level ∧ nb.sleep_level ≤ 100 := by
    simp only [World.writeChar, List.set_set] at hstep
    refine ⟨(w.characters.set i
        { A.update_needs 0.016 with is_breeding := false, breeding_cooldown := 30,
                                    breeding_partner := none, random_target_x := none,
                                    random_target_y := none, is_waiting := false }).map
        (fun q => if q.cid = B.cid then
            { q with is_breeding := false, breeding_cooldown := 30,
                     breeding_partner := none } else q),
      (spawnRabbit w.next_id (((A.update_needs 0.016).x + B.x) / 2)
        (((A.update_needs 0.016).y + B.y) / 2) g).1,
      ?_, ?_, ?_, ?_, ?_, ?_, ?_, ?_, ?_, ?_, ?_, ?_, ?_, ?_, ?_, ?_⟩
    · rw [hstep]
    · simp
    · refine ⟨{ A.update_needs 0.016 with is_breeding := false, breeding_cooldown := 30,
                                           breeding_partner := none, random_target_x := none,
                                           random_target_y := none, is_waiting := false },
        ?_, rfl, rfl, rfl⟩
      rw [List.getElem?_map, List.getElem?_set_eq hilen]
      simp only [Option.map_some']
      rw [if_neg (by rw [hu.1]; exact hABcid)]
    · refine ⟨{ B with is_breeding := false, breeding_cooldown := 30,
                       breeding_partner := none }, ?_, rfl, rfl, rfl⟩
      rw [List.getElem?_map, List.getElem?_set_ne (Nat.ne_of_lt hij), hB]
      simp only [Option.map_some']
      simp
    · intro m c' hc'
      rw [List.getElem?_map, Option.map_eq_some'] at hc'
      obtain ⟨cm, hcm, hfb⟩ := hc'
      subst hfb
      by_cases hmi : m = i
      · subst hmi
        rw [List.getElem?_set_eq hilen] at hcm
        have hcc := Option.some.inj hcm
        subst hcc
        split_ifs <;> rfl
      · rw [List.getElem?_set_ne (fun hh => hmi hh.symm)] at hcm
        by_cases hcid : cm.cid = B.cid
        · rw [if_pos hcid]
        · rw [if_neg hcid]
          by_contra hbm
          have hb' : cm.is_breeding = true := by
            cases hx : cm.is_breeding
            · exact absurd hx hbm
            · rfl
          rcases honly m cm hcm hb' with h | h
          · exact hmi h
          · subst h
            have hbe : B = cm := Option.some.inj (hB.symm.trans hcm)
            exact hcid (by rw [← hbe])
    · rfl
    · rfl
    · show ((A.update_needs 0.016).x + B.x) / 2 = (A.x + B.x) / 2
      rw [hu.2.2.1]
    · show ((A.update_needs 0.016).y + B.y) / 2 = (A.y + B.y) / 2
      rw [hu.2.2.2.1]
    · rfl
    · show (50 : ℚ) ≤ 50 + (100 - 50) * g.stream g.idx
      nlinarith [(hg g.idx).1, (hg g.idx).2]
    · show (50 : ℚ) + (100 - 50) * g.stream g.idx ≤ 100
      nlinarith [(hg g.idx).1, (hg g.idx).2]
    · show (50 : ℚ) ≤ 50 + (100 - 50) * g.stream (g.idx + 1)
      nlinarith [(hg (g.idx + 1)).1, (hg (g.idx + 1)).2]
    · show (50 : ℚ) + (100 - 50) * g.stream (g.idx + 1) ≤ 100
      nlinarith [(hg (g.idx + 1)).1, (hg (g.idx + 1)).2]
    · show (50 : ℚ) ≤ 50 + (100 - 50) * g.stream (g.idx + 1 + 1)
      nlinarith [(hg (g.idx + 1 + 1)).1, (hg (g.idx + 1 + 1)).2]
    · show (50 : ℚ) + (100 - 50) * g.stream (g.idx + 1 + 1) ≤ 100
      nlinarith [(hg (g.idx + 1 + 1)).1, (hg (g.idx + 1 + 1)).2]
  obtain ⟨l1, nb, hEQ, hlen, hA2, hB2, hallnb, hnbb, hnbt, hnbx, hnby, hnbh,
    hf1, hf2, hw1, hw2, hs1, hs2⟩ := hpack
  have hstL : (charStep prim wx wy (w, g) i).1.characters.length =
      w.characters.length + 1 := by
    rw [hEQ]
    simp [hlen]
  have hstA : (charStep prim wx wy (w, g) i).1.characters[i]? = l1[i]? := by
    rw [hEQ]
    exact List.getElem?_append_left (by omega)
  have hstB : (charStep prim wx wy (w, g) i).1.characters[j]? = l1[j]? := by
    rw [hEQ]
    exact List.getElem?_append_left (by omega)
  have hstnb : (charStep prim wx wy (w, g) i).1.characters[w.characters.length]? =
      some nb := by
    rw [hEQ, List.getElem?_append_right (by omega)]
    rw [show w.characters.length - l1.length = 0 by omega]
    rw [List.getElem?_cons_zero]
  have hinv : ∀ m c, i + 1 ≤ m →
      (charStep prim wx wy (w, g) i).1.characters[m]? = some c →
      c.is_breeding = false := by
    intro m c _ hc
    rw [hEQ] at hc
    by_cases hmL : m < l1.length
    · rw [List.getElem?_append_left hmL] at hc
      exact hallnb m c hc
    · rw [List.getElem?_append_right (by omega)] at hc
      rcases hmm : m - l1.length with _ | d
      · rw [hmm, List.getElem?_cons_zero] at hc
        have hcc := Option.some.inj hc
        rw [← hcc]
        exact hnbb
      · rw [hmm, List.getElem?_cons_succ] at hc
        simp at hc
  refine ⟨hstL, ⟨nb, hstnb, hnbt, hnbx, hnby, hnbh, hnbb, hf1, hf2, hw1, hw2, hs1, hs2⟩,
    ?_, ?_, ?_, ?_, ?_⟩
  · obtain ⟨A2, hA2e, hA2b, hA2c, hA2p⟩ := hA2
    exact ⟨A2, hstA.trans hA2e, hA2b, hA2c, hA2p⟩
  · obtain ⟨B2, hB2e, hB2b, hB2c, hB2p⟩ := hB2
    exact ⟨B2, hstB.trans hB2e, hB2b, hB2c, hB2p⟩
  · obtain ⟨t1, t2, t3⟩ :=
      aiLoop_track prim wx wy fuel (i + 1) (charStep prim wx wy (w, g) i) hinv
    rw [t1, hstL]
  · obtain ⟨t1, t2, t3⟩ :=
      aiLoop_track prim wx wy fuel (i + 1) (charStep prim wx wy (w, g) i) hinv
    exact t2 i (Nat.lt_succ_self i)
  · obtain ⟨t1, t2, t3⟩ :=
      aiLoop_track prim wx wy fuel (i + 1) (charStep prim wx wy (w, g) i) hinv
    obtain ⟨B2, hB2e, hB2b, hB2c, hB2p⟩ := hB2
    obtain ⟨B3, hB3e, hB3b⟩ := t3 j B2 (by omega) (hstB.trans hB2e) (by rw [hB2c]; norm_num)
    exact ⟨B3, hB3e, hB3b⟩

set_option maxRecDepth 8000 in
theorem C3_breeding_completion_witness :
    (charStep dummyPrim 0 0 (c3world, ⟨fun _ => 1/2, 0⟩) 1).1.characters.length =
      c3world.characters.length + 1 ∧
    (∃ nb, (charStep dummyPrim 0 0 (c3world, ⟨fun _ => 1/2, 0⟩)
        1).1.characters[c3world.characters.length]? = some nb ∧
      nb.character_type = CharType.rabbit ∧ nb.x = (c3A.x + c3B.x) / 2 ∧
      nb.y = (c3A.y + c3B.y) / 2 ∧ nb.health = 100 ∧ nb.is_breeding = false ∧
      50 ≤ nb.food_level ∧ nb.food_level ≤ 100 ∧ 50 ≤ nb.water_level ∧
      nb.water_level ≤ 100 ∧ 50 ≤ nb.sleep_level ∧ nb.sleep_level ≤ 100) ∧
    (∃ A2, (charStep dummyPrim 0 0 (c3world, ⟨fun _ => 1/2, 0⟩) 1).1.characters[1]? =
        some A2 ∧
      A2.is_breeding = false ∧ A2.breeding_cooldown = 30 ∧ A2.breeding_partner = none) ∧
    (∃ B2, (charStep dummyPrim 0 0 (c3world, ⟨fun _ => 1/2, 0⟩) 1).1.characters[2]? =
        some B2 ∧
      B2.is_breeding = false ∧ B2.breeding_cooldown = 30 ∧ B2.breeding_partner = none) ∧
    (aiLoop dummyPrim 0 0 8 (1 + 1)
        (charStep dummyPrim 0 0 (c3world, ⟨fun _ => 1/2, 0⟩) 1)).1.characters.length =
      c3world.characters.length + 1 ∧
    (aiLoop dummyPrim 0 0 8 (1 + 1)
        (charStep dummyPrim 0 0 (c3world, ⟨fun _ => 1/2, 0⟩) 1)).1.characters[1]? =
      (charStep dummyPrim 0 0 (c3world, ⟨fun _ => 1/2, 0⟩) 1).1.characters[1]? ∧
    (∃ B3, (aiLoop dummyPrim 0 0 8 (1 + 1)
        (charStep dummyPrim 0 0 (c3world, ⟨fun _ => 1/2, 0⟩) 1)).1.characters[2]? =
      some B3 ∧ B3.is_breeding = false) :=
  C3_breeding_completion dummyPrim 0 0 c3world ⟨fun _ => 1/2, 0⟩ 8 1 2 c3A c3B
    (fun _ => ⟨by norm_num, by norm_num⟩) (by norm_num)
    (by with_unfolding_all decide) (by with_unfolding_all decide)
    (by with_unfolding_all decide) (by with_unfolding_all decide)
    (by with_unfolding_all decide) (by with_unfolding_all decide)
    (by with_unfolding_all decide) (by with_unfolding_all decide)
    (by with_unfolding_all decide) (by with_unfolding_all decide)
    (by with_unfolding_all decide)
    (by
      intro m hm c hc
      rcases m with _ | _ | m
      · rw [show c3world.characters[0]? = some (mkWarden 0 1000 500) from by
          with_unfolding_all rfl] at hc
        cases Option.some.inj hc
        with_unfolding_all decide
      · rw [show c3world.characters[1]? = some c3A from by with_unfolding_all rfl] at hc
        cases Option.some.inj hc
        with_unfolding_all decide
      · omega)
    (by with_unfolding_all decide)
    (by
      intro m c hc hb
      rcases m with _ | _ | _ | m
      · rw [show c3world.characters[0]? = some (mkWarden 0 1000 500) from by
          with_unfolding_all rfl] at hc
        cases Option.some.inj hc
        exact absurd hb (by with_unfolding_all decide)
      · exact Or.inl rfl
      · exact Or.inr rfl
      · rw [show c3world.characters[m + 3]? = none from by with_unfolding_all rfl] at hc
        exact Option.noConfusion hc)

end RabbitPrison
